import Mathlib

/-!
trikRuntime: configuration resolver and WiFi request worker.

A shallow embedding of `trikKernel::Configurer` (src/trikKernel/src/configurer.cpp)
and of the WiFi request worker and facade described in the specification, with
the properties stated about them.

The Qt containers and the DOM are modelled by plain data:

* `QHash V` is an association list keyed by `String`; `insert` replaces the
  value of an existing key, as `QHash::insert` does.
* `QDomNode` is a tree; a node that is not an element plays the part of the
  null `QDomElement` that `toElement()` returns for it.
* `QDomNamedNodeMap` is the attribute map of an element: names are unique.
-/

namespace trikKernel

/-! ## QHash -/

/-- Model of `QHash<QString, V>`: an association list with unique use of each
key by construction (`insert` overwrites). -/
abbrev QHash (V : Type) := List (String × V)

namespace QHash

/-- Entry stored under `key`, if any. -/
def find {V : Type} : QHash V → String → Option V
  | [], _ => none
  | (k, v) :: rest, key => if k = key then some v else find rest key

/-- Model of `QHash::contains`. -/
def contains {V : Type} (m : QHash V) (key : String) : Bool :=
  (find m key).isSome

/-- Model of `QHash::value(key)` and of the const `operator[]`: the stored
value, or a default-constructed one. -/
def value {V : Type} [Inhabited V] (m : QHash V) (key : String) : V :=
  (find m key).getD default

/-- Model of `QHash::insert`: replaces the value of an existing key. -/
def insert {V : Type} : QHash V → String → V → QHash V
  | [], key, v => [(key, v)]
  | (k, w) :: rest, key, v =>
      if k = key then (key, v) :: rest else (k, w) :: insert rest key v

end QHash

/-! ## DOM -/

/-- Model of `QDomNamedNodeMap`, the attributes of one element. -/
structure QDomNamedNodeMap where
  items : List (String × String)
  unique : (items.map Prod.fst).Nodup

/-- Model of `QDomNode`. -/
inductive QDomNode where
  | element (tagName : String) (attrs : QDomNamedNodeMap) (children : List QDomNode)
  | textNode (data : String)
  | otherNode

instance : Inhabited QDomNode := ⟨QDomNode.otherNode⟩

namespace QDomNamedNodeMap

/-- The map without attributes. -/
def empty : QDomNamedNodeMap := ⟨[], List.nodup_nil⟩

/-- Model of `QDomElement::attribute(name, defValue)` (`attribute` is a reserved
word here, hence the name). -/
def getAttribute (attrs : QDomNamedNodeMap) (name : String) (defValue : String) : String :=
  (QHash.find attrs.items name).getD defValue

/-- Model of `QDomElement::hasAttribute(name)`. -/
def hasAttribute (attrs : QDomNamedNodeMap) (name : String) : Bool :=
  (QHash.find attrs.items name).isSome

end QDomNamedNodeMap

namespace QDomNode

/-- Model of `toElement().isNull()` negated. -/
def isElement : QDomNode → Bool
  | element _ _ _ => true
  | _ => false

/-- Model of `QDomElement::tagName`; empty for a null element. -/
def tagName : QDomNode → String
  | element t _ _ => t
  | _ => ""

/-- Model of `QDomElement::attributes`. -/
def attributes : QDomNode → QDomNamedNodeMap
  | element _ a _ => a
  | _ => QDomNamedNodeMap.empty

/-- Model of `QDomNode::childNodes`. -/
def childNodes : QDomNode → List QDomNode
  | element _ _ cs => cs
  | _ => []

/-- Model of `QDomNode::hasChildNodes`. -/
def hasChildNodes (n : QDomNode) : Bool :=
  !n.childNodes.isEmpty

/-- Whether the node is an element with the given tag name. -/
def isNamed (name : String) : QDomNode → Bool
  | element t _ _ => decide (t = name)
  | _ => false

mutual
/-- All proper descendants of a node, in preorder. -/
def descendants : QDomNode → List QDomNode
  | element _ _ cs => descendantsList cs
  | _ => []
/-- The nodes of a forest, in preorder. -/
def descendantsList : List QDomNode → List QDomNode
  | [] => []
  | n :: rest => n :: (descendants n ++ descendantsList rest)
end

/-- Model of `QDomElement::elementsByTagName`: the descendant elements with the
given tag name, in preorder; the element itself is not among them. -/
def elementsByTagName (n : QDomNode) (name : String) : List QDomNode :=
  (descendants n).filter (isNamed name)

mutual
/-- Model of `QDomElement::text`: the text of all text descendants. -/
def text : QDomNode → String
  | element _ _ cs => textList cs
  | textNode d => d
  | otherNode => ""
/-- Concatenated text of a forest. -/
def textList : List QDomNode → String
  | [] => ""
  | n :: rest => text n ++ textList rest
end

end QDomNode

/-! ## Configurer data -/

/-- Model of `Configurer::Device`. -/
structure Device where
  name : String := ""
  isOptional : Bool := false
  attributes : QHash String := []
  portSpecificAttributes : QHash (QHash String) := []

/-- Model of `Configurer::DeviceType`. -/
structure DeviceType where
  name : String := ""
  deviceClass : String := ""
  attributes : QHash String := []

/-- Model of `Configurer::ModelConfigurationElement`. -/
structure ModelConfigurationElement where
  port : String := ""
  deviceType : String := ""
  attributes : QHash String := []

/-- Model of `Configurer::AdditionalModelConfigurationElement`. -/
structure AdditionalModelConfigurationElement where
  deviceType : String := ""
  attributes : QHash String := []

instance : Inhabited Device := ⟨{}⟩
instance : Inhabited DeviceType := ⟨{}⟩
instance : Inhabited ModelConfigurationElement := ⟨{}⟩
instance : Inhabited AdditionalModelConfigurationElement := ⟨{}⟩

/-- Model of `MalformedConfigException`: the message and the offending node. -/
structure MalformedConfigException where
  message : String
  node : Option QDomNode := none

/-- The member tables of `trikKernel::Configurer`. -/
structure Configurer where
  mDevices : QHash Device := []
  mDeviceTypes : QHash DeviceType := []
  mAdditionalConfiguration : QHash Device := []
  mModelConfiguration : QHash ModelConfigurationElement := []
  mAdditionalModelConfiguration : QHash AdditionalModelConfigurationElement := []
  mInitScripts : List String := []

/-- The loop `for j: target.insert(attribute.name(), attribute.value())` that
every parser runs over the attributes of an element. -/
def insertAttributes (attributes : QDomNamedNodeMap) (target : QHash String) : QHash String :=
  attributes.items.foldl (fun acc a => QHash.insert acc a.1 a.2) target

/-- The loop `for i in childNodes(): if (!node.isNull()) body` with a body that
may throw: the first exception ends the loop. -/
def forEachChild {σ : Type} (body : QDomNode → σ → Except MalformedConfigException σ) :
    List QDomNode → σ → Except MalformedConfigException σ
  | [], s => Except.ok s
  | n :: rest, s =>
      if n.isElement then
        match body n s with
        | Except.ok s1 => forEachChild body rest s1
        | Except.error e => Except.error e
      else forEachChild body rest s

namespace Configurer

/-- Model of `Configurer::attribute` (`attribute` is a reserved word here, hence
the name). The value returned after the `mDeviceTypes` block is `lastLayer`. -/
def getAttribute (c : Configurer) (deviceType attributeName : String) : String :=
  if c.mAdditionalModelConfiguration.contains deviceType
      && (c.mAdditionalModelConfiguration.value deviceType).attributes.contains attributeName then
    (c.mAdditionalModelConfiguration.value deviceType).attributes.value attributeName
  else if c.mAdditionalConfiguration.contains deviceType
      && (c.mAdditionalConfiguration.value deviceType).attributes.contains attributeName then
    (c.mAdditionalConfiguration.value deviceType).attributes.value attributeName
  else
    let lastLayer : String :=
      if c.mDevices.contains deviceType
          && (c.mDevices.value deviceType).attributes.contains attributeName then
        (c.mDevices.value deviceType).attributes.value attributeName
      else ""
    if c.mDeviceTypes.contains deviceType then
      if (c.mDeviceTypes.value deviceType).attributes.contains attributeName then
        (c.mDeviceTypes.value deviceType).attributes.value attributeName
      else
        let deviceClass : String := (c.mDeviceTypes.value deviceType).deviceClass
        if c.mDevices.contains deviceClass
            && (c.mDevices.value deviceClass).attributes.contains attributeName then
          (c.mDevices.value deviceClass).attributes.value attributeName
        else lastLayer
    else lastLayer

/-- Model of `Configurer::isEnabled`. -/
def isEnabled (c : Configurer) (deviceName : String) : Bool :=
  if c.mAdditionalModelConfiguration.contains deviceName then true
  else if c.mDevices.contains deviceName && !(c.mDevices.value deviceName).isOptional then true
  else false

/-- Body of the loop of `Configurer::parseDeviceClasses` for one element. -/
def parseDeviceClass (deviceNode : QDomNode) (c : Configurer) :
    Except MalformedConfigException Configurer :=
  let device : Device :=
    { name := deviceNode.tagName
      isOptional := decide (deviceNode.attributes.getAttribute "optional" "false" = "true")
      attributes := insertAttributes deviceNode.attributes [] }
  Except.ok { c with mDevices := c.mDevices.insert device.name device }

/-- Model of `Configurer::parseDeviceClasses`. -/
def parseDeviceClasses (element : QDomNode) (c : Configurer) :
    Except MalformedConfigException Configurer :=
  forEachChild parseDeviceClass element.childNodes c

/-- The statement `mDevices[deviceName].portSpecificAttributes[port].insert(name, value)`. -/
def insertPortSpecific (devices : QHash Device) (deviceName port : String)
    (a : String × String) : QHash Device :=
  let device : Device := devices.value deviceName
  devices.insert deviceName
    { device with
      portSpecificAttributes :=
        device.portSpecificAttributes.insert port
          ((device.portSpecificAttributes.value port).insert a.1 a.2) }

/-- Body of the loop of `Configurer::parseDevicePorts` for one element. -/
def parseDevicePort (devicePortNode : QDomNode) (c : Configurer) :
    Except MalformedConfigException Configurer :=
  let deviceName := devicePortNode.tagName
  if !c.mDevices.contains deviceName then
    Except.error ⟨"Device is not listed in 'DeviceClasses' section", some devicePortNode⟩
  else
    let port := devicePortNode.attributes.getAttribute "port" ""
    if port = "" then
      Except.error ⟨"Port map shall have non-empty 'port' attribute", some devicePortNode⟩
    else
      Except.ok { c with
        mDevices := devicePortNode.attributes.items.foldl
          (fun devices a => insertPortSpecific devices deviceName port a) c.mDevices }

/-- Model of `Configurer::parseDevicePorts`. -/
def parseDevicePorts (element : QDomNode) (c : Configurer) :
    Except MalformedConfigException Configurer :=
  forEachChild parseDevicePort element.childNodes c

/-- Body of the loop of `Configurer::parseDeviceTypes` for one element. -/
def parseDeviceType (deviceTypeNode : QDomNode) (c : Configurer) :
    Except MalformedConfigException Configurer :=
  let deviceClass := deviceTypeNode.attributes.getAttribute "class" ""
  if deviceClass = "" then
    Except.error ⟨"Device type shall have 'class' attribute", some deviceTypeNode⟩
  else if !c.mDevices.contains deviceClass then
    Except.error ⟨"Device is not listed in 'DeviceClasses' section", some deviceTypeNode⟩
  else
    let deviceType : DeviceType :=
      { name := deviceTypeNode.tagName
        deviceClass := deviceClass
        attributes := insertAttributes deviceTypeNode.attributes [] }
    Except.ok { c with mDeviceTypes := c.mDeviceTypes.insert deviceType.name deviceType }

/-- Model of `Configurer::parseDeviceTypes`. -/
def parseDeviceTypes (element : QDomNode) (c : Configurer) :
    Except MalformedConfigException Configurer :=
  forEachChild parseDeviceType element.childNodes c

/-- Model of `Configurer::parseInitScript`. -/
def parseInitScript (element : QDomNode) (c : Configurer) : Configurer :=
  { c with mInitScripts := c.mInitScripts ++ [element.text] }

/-- Body of the loop of `Configurer::parseAdditionalConfigurations` for one element. -/
def parseAdditionalConfiguration (tag : QDomNode) (c : Configurer) :
    Except MalformedConfigException Configurer :=
  if tag.tagName = "initScript" || tag.tagName = "deviceClasses"
      || tag.tagName = "devicePorts" || tag.tagName = "deviceTypes" then
    Except.ok c
  else
    let additionalDevice : Device :=
      { name := tag.tagName
        attributes := insertAttributes tag.attributes [] }
    Except.ok { c with
      mAdditionalConfiguration :=
        c.mAdditionalConfiguration.insert additionalDevice.name additionalDevice }

/-- Model of `Configurer::parseAdditionalConfigurations`. -/
def parseAdditionalConfigurations (element : QDomNode) (c : Configurer) :
    Except MalformedConfigException Configurer :=
  forEachChild parseAdditionalConfiguration element.childNodes c

/-- Body of the loop of `Configurer::parseModelConfig` for one element. -/
def parseModelConfigTag (tag : QDomNode) (c : Configurer) :
    Except MalformedConfigException Configurer :=
  if tag.tagName = "initScript" then
    Except.ok (parseInitScript tag c)
  else if tag.hasChildNodes then
    let devices := tag.childNodes
    if devices.length > 1 then
      Except.error ⟨"Only one device can be configured on a port", some tag⟩
    else
      let device : QDomNode := devices.headD QDomNode.otherNode
      if device.isElement then
        let port : ModelConfigurationElement :=
          { port := tag.tagName
            deviceType := device.tagName
            attributes := insertAttributes tag.attributes [] }
        Except.ok { c with mModelConfiguration := c.mModelConfiguration.insert port.port port }
      else Except.ok c
  else
    let deviceType := tag.tagName
    if !c.mDevices.contains deviceType then
      Except.error
        ⟨"Device shall be listed in 'deviceClasses' section in system config", some tag⟩
    else if tag.attributes.getAttribute "disabled" "false" = "false" then
      let element : AdditionalModelConfigurationElement :=
        { deviceType := deviceType
          attributes := insertAttributes tag.attributes [] }
      Except.ok { c with
        mAdditionalModelConfiguration :=
          c.mAdditionalModelConfiguration.insert element.deviceType element }
    else Except.ok c

/-- Model of `Configurer::parseModelConfig`. -/
def parseModelConfig (element : QDomNode) (c : Configurer) :
    Except MalformedConfigException Configurer :=
  forEachChild parseModelConfigTag element.childNodes c

/-- The lambda `parseSection` of the constructor: the section shall be the only
descendant of the system config with its tag name. -/
def parseSection (systemConfig : QDomNode) (sectionName : String)
    (action : QDomNode → Configurer → Except MalformedConfigException Configurer)
    (c : Configurer) : Except MalformedConfigException Configurer :=
  let sectionNodes := systemConfig.elementsByTagName sectionName
  if sectionNodes.length ≠ 1 then
    Except.error ⟨"'" ++ sectionName ++ "' element shall appear exactly once in config", none⟩
  else action (sectionNodes.headD QDomNode.otherNode) c

/-- Model of the constructor `Configurer::Configurer`, given the root elements
that `FileUtils::readXmlFile` returned for the two files. -/
def construct (systemConfig modelConfig : QDomNode) :
    Except MalformedConfigException Configurer :=
  match parseSection systemConfig "deviceClasses" parseDeviceClasses {} with
  | Except.error e => Except.error e
  | Except.ok c1 =>
    match parseSection systemConfig "devicePorts" parseDevicePorts c1 with
    | Except.error e => Except.error e
    | Except.ok c2 =>
      match parseSection systemConfig "deviceTypes" parseDeviceTypes c2 with
      | Except.error e => Except.error e
      | Except.ok c3 =>
        match parseSection systemConfig "initScript"
            (fun element c => Except.ok (parseInitScript element c)) c3 with
        | Except.error e => Except.error e
        | Except.ok c4 =>
          match parseAdditionalConfigurations systemConfig c4 with
          | Except.error e => Except.error e
          | Except.ok c5 => parseModelConfig modelConfig c5

end Configurer

end trikKernel

namespace trikKernel

/-! ## Vocabulary of the properties -/

/-- The last element with the given tag name in a list of sibling nodes. -/
def lastElementNamed (name : String) : List QDomNode → Option QDomNode
  | [] => none
  | n :: rest =>
      match lastElementNamed name rest with
      | some e => some e
      | none => if n.isNamed name then some n else none

/-- Whether `name` is the tag name of an element of a `deviceClasses` section of
the system config. -/
def listedInDeviceClasses (systemConfig : QDomNode) (name : String) : Bool :=
  (systemConfig.elementsByTagName "deviceClasses").any
    (fun sec => sec.childNodes.any (QDomNode.isNamed name))

/-- A childless element of the model config, other than `initScript`, whose
`disabled` attribute is absent or `false`: an enabled device entry. -/
def enabledEntry (n : QDomNode) : Bool :=
  n.isElement && decide (n.tagName ≠ "initScript") && n.childNodes.isEmpty
    && decide (n.attributes.getAttribute "disabled" "false" = "false")

namespace Configurer

/-- The five layers that the resolution order names, as the spec words them: for
each layer the attribute table it holds for `deviceType`, when it has an entry:
model-config device entry, system-config additional entry, device type, the
class declared by the device type, the device class named `deviceType`. -/
def attributeLayers (c : Configurer) (deviceType : String) : List (Option (QHash String)) :=
  [ (QHash.find c.mAdditionalModelConfiguration deviceType).map (fun e => e.attributes),
    (QHash.find c.mAdditionalConfiguration deviceType).map (fun e => e.attributes),
    (QHash.find c.mDeviceTypes deviceType).map (fun e => e.attributes),
    ((QHash.find c.mDeviceTypes deviceType).bind
      (fun t => QHash.find c.mDevices t.deviceClass)).map (fun e => e.attributes),
    (QHash.find c.mDevices deviceType).map (fun e => e.attributes) ]

/-- Resolution as the spec words it: the value that the first layer defining
`attributeName` gives, the empty string when no layer defines it. -/
def layeredAttribute (c : Configurer) (deviceType attributeName : String) : String :=
  (((attributeLayers c deviceType).filterMap
      (fun layer => layer.bind (fun attrs => QHash.find attrs attributeName))).head?).getD ""

end Configurer
end trikKernel

namespace trikKernel

/-- The part of a device-class entry that `parseDeviceClasses` writes and
`parseDevicePorts` leaves alone. -/
def Device.core (d : Device) : String × Bool × QHash String :=
  (d.name, d.isOptional, d.attributes)

/-- The entry that `parseDeviceClasses` makes of an element, up to the
port-specific attributes. -/
def deviceClassCore (e : QDomNode) : String × Bool × QHash String :=
  (e.tagName, decide (e.attributes.getAttribute "optional" "false" = "true"),
    insertAttributes e.attributes [])

end trikKernel

namespace trikKernel

/-! ## Example documents -/

/-- An element without attributes. -/
def plainElement (tag : String) (children : List QDomNode) : QDomNode :=
  QDomNode.element tag QDomNamedNodeMap.empty children

/-- An element with one attribute. -/
def elementWith (tag key value : String) (children : List QDomNode) : QDomNode :=
  QDomNode.element tag ⟨[(key, value)], by simp⟩ children

/-- A system config: three device classes, one port map, one device type, and
two additional entries. -/
def exSystem : QDomNode :=
  plainElement "config"
    [ plainElement "initScript" [QDomNode.textNode "echo 1"],
      plainElement "deviceClasses"
        [ elementWith "gamepad" "port" "1111" [],
          plainElement "servoMotor" [],
          elementWith "lineSensor" "optional" "true" [] ],
      plainElement "devicePorts" [elementWith "servoMotor" "port" "S1" []],
      plainElement "deviceTypes" [elementWith "angularServo" "class" "servoMotor" []],
      elementWith "gamepad" "port" "2222" [],
      elementWith "mailbox" "server" "8889" [] ]

/-- A model config: a port with a device, an enabled device entry and a disabled one. -/
def exModel : QDomNode :=
  plainElement "config"
    [ plainElement "initScript" [QDomNode.textNode "start"],
      plainElement "S1" [plainElement "angularServo" []],
      elementWith "gamepad" "port" "4444" [],
      elementWith "lineSensor" "disabled" "true" [] ]

/-- The Configurer built from `exSystem` and `exModel`. -/
def exConfigurer : Configurer :=
  match Configurer.construct exSystem exModel with
  | Except.ok c => c
  | Except.error _ => {}

/-- The least system config that is accepted, around given device classes. -/
def systemWith (deviceClasses : List QDomNode) (devicePorts deviceTypes : List QDomNode) :
    QDomNode :=
  plainElement "config"
    [ plainElement "initScript" [],
      plainElement "deviceClasses" deviceClasses,
      plainElement "devicePorts" devicePorts,
      plainElement "deviceTypes" deviceTypes ]

/-- A system config in which the class `d` is listed twice, optional the second
time, and `e` is optional. -/
def dupSystem : QDomNode :=
  systemWith
    [ plainElement "d" [], elementWith "d" "optional" "true" [],
      elementWith "e" "optional" "true" [] ] [] []

/-- A model config with an empty init script and the device `e` on port `S1`. -/
def dupModel : QDomNode :=
  plainElement "config" [plainElement "initScript" [], plainElement "S1" [plainElement "e" []]]

/-- The Configurer built from `dupSystem` and `dupModel`. -/
def dupConfigurer : Configurer :=
  match Configurer.construct dupSystem dupModel with
  | Except.ok c => c
  | Except.error _ => {}

/-- The elements of a document with the given tag name, in document order: the
root element, when it has that name, and the descendants that
`elementsByTagName` finds. -/
def documentElementsNamed (root : QDomNode) (name : String) : List QDomNode :=
  (root :: root.descendants).filter (QDomNode.isNamed name)

/-- A system config with the class `servoMotor` and the device type
`angularServo`, whose `invert` attribute is `false`. -/
def overrideSystem : QDomNode :=
  systemWith [plainElement "servoMotor" []] []
    [ QDomNode.element "angularServo"
        ⟨[("class", "servoMotor"), ("invert", "false")], by decide⟩ [] ]

/-- A model config with an init script that carries an attribute, and the device
`angularServo`, with `invert` set to `true`, on the port `S1`. -/
def overrideModel : QDomNode :=
  plainElement "config"
    [ elementWith "initScript" "a" "v" [],
      plainElement "S1" [elementWith "angularServo" "invert" "true" []] ]

/-- The Configurer built from `overrideSystem` and `overrideModel`. -/
def overrideConfigurer : Configurer :=
  match Configurer.construct overrideSystem overrideModel with
  | Except.ok c => c
  | Except.error _ => {}

/-- A system config whose root element is itself named `deviceClasses` and holds
each of the four sections once. -/
def nestedRootSystem : QDomNode :=
  plainElement "deviceClasses"
    [ plainElement "initScript" [],
      plainElement "deviceClasses" [],
      plainElement "devicePorts" [],
      plainElement "deviceTypes" [] ]

/-- A model config without elements. -/
def emptyModel : QDomNode :=
  plainElement "config" []

/-- The Configurer built from `nestedRootSystem` and `emptyModel`. -/
def nestedRootConfigurer : Configurer :=
  match Configurer.construct nestedRootSystem emptyModel with
  | Except.ok c => c
  | Except.error _ => {}

end trikKernel

namespace trikKernel

/-- A system config with two `deviceTypes` sections. -/
def twoTypesSystem : QDomNode :=
  plainElement "config"
    [ plainElement "initScript" [],
      plainElement "deviceClasses" [],
      plainElement "devicePorts" [],
      plainElement "deviceTypes" [],
      plainElement "deviceTypes" [] ]

/-- A system config whose device type names a class that is not listed. -/
def badTypeSystem : QDomNode :=
  systemWith [plainElement "servoMotor" []] []
    [elementWith "angularServo" "class" "stepper" []]

/-- A system config whose port map has no `port` attribute. -/
def badPortSystem : QDomNode :=
  systemWith [plainElement "servoMotor" []] [plainElement "servoMotor" []] []

/-- A model config with two devices on the port `S1`. -/
def twoDevicesModel : QDomNode :=
  plainElement "config"
    [plainElement "S1" [plainElement "angularServo" [], plainElement "stepper" []]]

/-- A model config with a disabled entry for a device that `exSystem` does not list. -/
def unlistedModel : QDomNode :=
  plainElement "config" [elementWith "camera" "disabled" "true" []]

end trikKernel

namespace trikWiFi

/-! ## The WiFi request worker

`TrikWiFiWorker` is only declared in src/trikWiFi/include/trikWiFi/trikWiFi.h
(`TrikWiFi::mWorker`); its code is not among the sources. The worker is modelled
from sections 3, 4.2, 4.3 and 5 of the specification. -/

/-- Modelled from the spec: the kinds of Command of section 3 (`TrikWiFiWorker`
is not among the sources); `Connect` carries the network id. -/
inductive CommandKind where
  | Connect (id : Int)
  | Disconnect
  | StatusRequest
  | ScanRequest
  | ListNetworksRequest
  deriving DecidableEq

/-- Modelled from the spec: a Command of section 3, with a ticket that tells
apart two requests of the same kind. -/
structure Command where
  ticket : Nat
  kind : CommandKind
  deriving DecidableEq

/-- Modelled from the spec: the failure reasons of section 7; `Rejected` is the
reply `FAIL` of the daemon. -/
inductive Failure where
  | ConnectionLost
  | Timeout
  | Cancelled
  | Rejected
  deriving DecidableEq

/-- Modelled from the spec: the result that a Command resolves with, the payload
lines of its reply or a failure. -/
inductive Outcome where
  | success (payload : List String)
  | failure (reason : Failure)
  deriving DecidableEq

/-- Modelled from the spec: `ChannelLifecycleState` of section 3. -/
inductive ChannelLifecycleState where
  | Uninitialized
  | Opening
  | Ready
  | Disposed
  deriving DecidableEq

/-- Modelled from the spec: the states `Idle`, `Sending`, `AwaitingReply` of the
RequestWorker of section 4.3, with the command in flight and the reply lines
assembled so far. -/
inductive Phase where
  | Idle
  | Sending (command : Command)
  | AwaitingReply (command : Command) (payload : List String)
  deriving DecidableEq

/-- Modelled from the spec: the RequestWorker of section 4.3. `outstanding` lists
the commands that were written to the control channel and whose reply has not
been terminated, timed out or cancelled; `resolved` lists the commands that
completed or failed, in order. -/
structure RequestWorker where
  lifecycle : ChannelLifecycleState := ChannelLifecycleState.Uninitialized
  phase : Phase := Phase.Idle
  queue : List Command := []
  outstanding : List Command := []
  resolved : List (Command × Outcome) := []
  stale : Bool := false

/-- Modelled from the spec: what can happen to the worker: the channel was
opened (or not), a caller queued a command, the worker takes the next command,
`writeLine` returned, `readLine` returned a line or timed out, `reinit()`,
`dispose()`. -/
inductive WorkerInput where
  | channelOpened (ok : Bool)
  | enqueue (command : Command)
  | takeNext
  | written (ok : Bool)
  | lineRead (line : String)
  | timedOut
  | reinit
  | dispose

/-- Modelled from the spec: the event marker of the LineDemultiplexer of section
4.2, written `<event>` in the scenarios of section 8. -/
def eventMarker : List Char := "<event>".toList

/-- Modelled from the spec: the classification rule of the LineDemultiplexer of
section 4.2: a line that carries the event marker is an Event. -/
def isEventLine (line : String) : Bool :=
  eventMarker.isPrefixOf line.toList

/-- Modelled from the spec: the terminal tokens `OK` and `FAIL` of section 6. -/
def isTerminalLine (line : String) : Bool :=
  decide (line = "OK") || decide (line = "FAIL")

/-- Modelled from the spec: the commands in flight, as the phase tells them. -/
def Phase.inFlight : Phase → List Command
  | Phase.Idle => []
  | Phase.Sending command => [command]
  | Phase.AwaitingReply command _ => [command]

/-- Modelled from the spec: cancellation by `reinit()` and `dispose()` of section
4.3 and 5: the command in flight and the queued commands fail with `Cancelled`,
nothing stays outstanding, and the worker is idle in the given lifecycle state. -/
def RequestWorker.cancelAll (w : RequestWorker) (next : ChannelLifecycleState) :
    RequestWorker :=
  { w with
    lifecycle := next
    phase := Phase.Idle
    queue := []
    outstanding := []
    resolved := w.resolved
      ++ (w.phase.inFlight ++ w.queue).map (fun command => (command, Outcome.failure Failure.Cancelled)) }

/-- Modelled from the spec: one step of the RequestWorker of section 4.3.
A command is written only in `Sending`, which is entered only from `Idle`; the
reply, a timeout or a cancellation leads back to `Idle`. -/
def RequestWorker.step (w : RequestWorker) : WorkerInput → RequestWorker
  | WorkerInput.channelOpened ok =>
      match w.lifecycle with
      | ChannelLifecycleState.Uninitialized | ChannelLifecycleState.Opening =>
          { w with
            lifecycle :=
              if ok then ChannelLifecycleState.Ready else ChannelLifecycleState.Disposed
            stale := false }
      | _ => w
  | WorkerInput.enqueue command => { w with queue := w.queue ++ [command] }
  | WorkerInput.takeNext =>
      match w.lifecycle, w.phase, w.queue with
      | ChannelLifecycleState.Ready, Phase.Idle, command :: rest =>
          { w with phase := Phase.Sending command, queue := rest }
      | _, _, _ => w
  | WorkerInput.written ok =>
      match w.phase with
      | Phase.Sending command =>
          if ok then
            { w with
              phase := Phase.AwaitingReply command []
              outstanding := w.outstanding ++ [command] }
          else
            { w with
              phase := Phase.Idle
              lifecycle := ChannelLifecycleState.Disposed
              resolved := w.resolved ++ [(command, Outcome.failure Failure.ConnectionLost)] }
      | _ => w
  | WorkerInput.lineRead line =>
      if isEventLine line then w
      else
        match w.phase with
        | Phase.AwaitingReply command payload =>
            if isTerminalLine line then
              { w with
                phase := Phase.Idle
                outstanding := w.outstanding.erase command
                resolved := w.resolved ++
                  [(command,
                    if line = "OK" then Outcome.success payload
                    else Outcome.failure Failure.Rejected)] }
            else { w with phase := Phase.AwaitingReply command (payload ++ [line]) }
        | _ => w
  | WorkerInput.timedOut =>
      match w.phase with
      | Phase.AwaitingReply command _ =>
          { w with
            phase := Phase.Idle
            stale := true
            outstanding := w.outstanding.erase command
            resolved := w.resolved ++ [(command, Outcome.failure Failure.Timeout)] }
      | _ => w
  | WorkerInput.reinit => w.cancelAll ChannelLifecycleState.Opening
  | WorkerInput.dispose => w.cancelAll ChannelLifecycleState.Disposed

/-- Modelled from the spec: the worker after a sequence of inputs. -/
def RequestWorker.run (w : RequestWorker) (inputs : List WorkerInput) : RequestWorker :=
  inputs.foldl RequestWorker.step w

/-- Modelled from the spec: the states that the worker reaches from its initial
state. -/
inductive RequestWorker.Reachable : RequestWorker → Prop where
  | initial : RequestWorker.Reachable {}
  | step (w : RequestWorker) (input : WorkerInput) :
      RequestWorker.Reachable w → RequestWorker.Reachable (w.step input)

/-- Modelled from the spec: the link between the phase of the worker and the
commands outstanding on the channel. -/
def RequestWorker.Consistent (w : RequestWorker) : Prop :=
  match w.phase with
  | Phase.AwaitingReply command _ => w.outstanding = [command]
  | _ => w.outstanding = []

end trikWiFi

namespace trikKernel

/-- The tables that `Configurer::attribute` and `Configurer::isEnabled` read, and
the port table with them, are the same in two Configurers (the init scripts may
differ). -/
def Configurer.sameTables (c c2 : Configurer) : Prop :=
  c.mDevices = c2.mDevices ∧ c.mDeviceTypes = c2.mDeviceTypes
    ∧ c.mAdditionalConfiguration = c2.mAdditionalConfiguration
    ∧ c.mModelConfiguration = c2.mModelConfiguration
    ∧ c.mAdditionalModelConfiguration = c2.mAdditionalModelConfiguration

/-- A model config that marks the device class `servoMotor` of `exSystem`, which
is not optional, as disabled. -/
def disabledModel : QDomNode :=
  plainElement "config"
    [ elementWith "gamepad" "port" "4444" [],
      elementWith "servoMotor" "disabled" "true" [],
      plainElement "S1" [plainElement "angularServo" []] ]

/-- The Configurer built from `exSystem` and `disabledModel`. -/
def disabledConfigurer : Configurer :=
  match Configurer.construct exSystem disabledModel with
  | Except.ok c => c
  | Except.error _ => {}

end trikKernel

namespace trikWiFi

/-! ## The WiFi facade: notifications and cached results

The class `TrikWiFi` is declared in src/trikWiFi/include/trikWiFi/trikWiFi.h; its
code, the code of `TrikWiFiWorker` and the header `networkStructs.h` are not among
the sources. The notifications and the StateCache are modelled from sections 3,
4.2, 4.3, 4.4, 6 and 7 of the specification, on top of the RequestWorker. -/

/-- Modelled from the spec: the Notifications of section 4.4, named as the
signals of `TrikWiFi` in trikWiFi.h (the code that emits them is not among the
sources). -/
inductive Notification where
  | scanFinished
  | connected
  | disconnected
  | statusReady
  | listNetworksReady
  | error (message : String)
  deriving DecidableEq

/-- Modelled from the spec: whether a Notification is `error(message)`. -/
def Notification.isError : Notification → Bool
  | Notification.error _ => true
  | _ => false

/-- Modelled from the spec: the kinds of Event of section 3. -/
inductive EventKind where
  | Connected
  | Disconnected
  | ScanResultsReady
  | Other
  deriving DecidableEq

/-- Modelled from the spec: `ScanResult` of section 3 (`networkStructs.h` is not
among the sources). -/
structure ScanResult where
  ssid : String
  bssid : String := ""
  signalLevel : Int
  flags : String := ""
  deriving DecidableEq

/-- Modelled from the spec: the StateCache of section 2. The spec gives no format
for status fields and network rows, so these two snapshots are kept as the
payload lines of the last completed refresh; scan rows are parsed. -/
structure StateCache where
  statusLines : List String := []
  scan : List ScanResult := []
  networkLines : List String := []

/-- Modelled from the spec: the spec names both the Event `ScanResultsReady` and
the completed `ScanRequest` and one Notification `scanFinished`, delivered once
per corresponding completed Command or Event; it does not say which of the two
it corresponds to. The model keeps the choice open. -/
inductive ScanFinishedTrigger where
  | onEvent
  | onCompletion
  deriving DecidableEq

/-- Modelled from the spec: the wire text of a Command, section 6. -/
def CommandKind.wireText : CommandKind → String
  | CommandKind.Connect id => "CONNECT " ++ toString id
  | CommandKind.Disconnect => "DISCONNECT"
  | CommandKind.StatusRequest => "STATUS"
  | CommandKind.ScanRequest => "SCAN"
  | CommandKind.ListNetworksRequest => "LIST_NETWORKS"

/-- Modelled from the spec: the kind of an Event line, by the text that follows
the event marker (section 6). -/
def eventKindOf (line : String) : EventKind :=
  let body := line.toList.drop eventMarker.length
  if "CTRL-EVENT-CONNECTED".toList.isPrefixOf body then EventKind.Connected
  else if "CTRL-EVENT-DISCONNECTED".toList.isPrefixOf body then EventKind.Disconnected
  else if "CTRL-EVENT-SCAN-RESULTS".toList.isPrefixOf body then EventKind.ScanResultsReady
  else EventKind.Other

/-- Modelled from the spec: the pieces of a text between separators. -/
def splitChars (sep : Char) : List Char → List (List Char)
  | [] => [[]]
  | c :: rest =>
      if c = sep then [] :: splitChars sep rest
      else
        match splitChars sep rest with
        | [] => [[c]]
        | first :: more => (c :: first) :: more

/-- Modelled from the spec: a field `key=value` of a data row. -/
def keyValue : List Char → Option (String × List Char)
  | [] => none
  | c :: rest =>
      if c = '=' then some ("", rest)
      else (keyValue rest).map (fun kv => (String.mk (c :: kv.1.data), kv.2))

/-- Modelled from the spec: the value of the field `key` of a data row. -/
def rowField (key : String) (fields : List (List Char)) : Option (List Char) :=
  ((fields.filterMap keyValue).find? (fun kv => decide (kv.1 = key))).map (fun kv => kv.2)

/-- Modelled from the spec: the number that a run of decimal digits writes. -/
def parseDigits : List Char → Nat → Option Nat
  | [], acc => some acc
  | c :: rest, acc =>
      if c.isDigit then parseDigits rest (10 * acc + (c.toNat - '0'.toNat)) else none

/-- Modelled from the spec: a signal level, a decimal number with an optional
minus sign. -/
def parseSignal : List Char → Option Int
  | [] => none
  | c :: rest =>
      if c = '-' then
        if rest.isEmpty then none else (parseDigits rest 0).map (fun n => - (n : Int))
      else (parseDigits (c :: rest) 0).map (fun n => (n : Int))

/-- Modelled from the spec: a scan row in the only form the spec shows, the rows
`ssid=Net1,signal=-40` of the scenario of section 8: fields `key=value` between
commas; `ssid` and `signal` are required, `bssid` and `flags` optional. A row
that does not parse is discarded (ProtocolError, section 7). -/
def parseScanRow (line : String) : Option ScanResult :=
  let fields := splitChars ',' line.toList
  match rowField "ssid" fields, (rowField "signal" fields).bind parseSignal with
  | some ssid, some signal =>
      some
        { ssid := String.mk ssid
          bssid := String.mk ((rowField "bssid" fields).getD [])
          signalLevel := signal
          flags := String.mk ((rowField "flags" fields).getD []) }
  | _, _ => none

/-- Modelled from the spec: the human-readable reason of a failure, section 7. -/
def Failure.message : Failure → String
  | Failure.ConnectionLost => "connection lost"
  | Failure.Timeout => "timeout"
  | Failure.Cancelled => "cancelled"
  | Failure.Rejected => "FAIL"

/-- Modelled from the spec: the Notification that an Event fires (section 4.3,
step 3). No Notification of section 4.4 belongs to an Event of kind `Other`. -/
def eventNotifications (trigger : ScanFinishedTrigger) : EventKind → List Notification
  | EventKind.Connected => [Notification.connected]
  | EventKind.Disconnected => [Notification.disconnected]
  | EventKind.ScanResultsReady =>
      if trigger = ScanFinishedTrigger.onEvent then [Notification.scanFinished] else []
  | EventKind.Other => []

/-- Modelled from the spec: the Notification that a resolved Command fires
(sections 4.4 and 7): the completion signal of a refresh, `error` for a failure;
`connected` and `disconnected` belong to the Events. -/
def completionNotifications (trigger : ScanFinishedTrigger) :
    Command × Outcome → List Notification
  | (_, Outcome.failure reason) => [Notification.error reason.message]
  | (command, Outcome.success _) =>
      match command.kind with
      | CommandKind.StatusRequest => [Notification.statusReady]
      | CommandKind.ListNetworksRequest => [Notification.listNetworksReady]
      | CommandKind.ScanRequest =>
          if trigger = ScanFinishedTrigger.onCompletion then [Notification.scanFinished] else []
      | _ => []

/-- Modelled from the spec: the cache refresh of section 4.3, step 4: a completed
Status, Scan or ListNetworks command replaces its whole snapshot; a failed
command changes nothing. -/
def StateCache.refresh (cache : StateCache) : Command × Outcome → StateCache
  | (_, Outcome.failure _) => cache
  | (command, Outcome.success payload) =>
      match command.kind with
      | CommandKind.StatusRequest => { cache with statusLines := payload }
      | CommandKind.ScanRequest => { cache with scan := payload.filterMap parseScanRow }
      | CommandKind.ListNetworksRequest => { cache with networkLines := payload }
      | _ => cache

/-- Modelled from the spec: the Facade of section 4.4, the class `TrikWiFi` of
trikWiFi.h: the worker (`mWorker`), the StateCache, and the Notifications fired
so far, in order. -/
structure TrikWiFi where
  mWorker : RequestWorker := {}
  cache : StateCache := {}
  notifications : List Notification := []
  scanFinishedOn : ScanFinishedTrigger := ScanFinishedTrigger.onCompletion

/-- Modelled from the spec: one step of the worker seen from the Facade: the
commands that the step resolved refresh the cache and fire their Notification;
an Event line read from the open channel fires its Notification. -/
def TrikWiFi.step (f : TrikWiFi) (input : WorkerInput) : TrikWiFi :=
  let worker := f.mWorker.step input
  let completed := worker.resolved.drop f.mWorker.resolved.length
  let events : List Notification :=
    match input with
    | WorkerInput.lineRead line =>
        if f.mWorker.lifecycle = ChannelLifecycleState.Ready ∧ isEventLine line = true then
          eventNotifications f.scanFinishedOn (eventKindOf line)
        else []
    | _ => []
  { f with
    mWorker := worker
    cache := completed.foldl StateCache.refresh f.cache
    notifications := f.notifications ++ events
      ++ (completed.map (completionNotifications f.scanFinishedOn)).flatten }

/-- Modelled from the spec: the Facade after a sequence of inputs. -/
def TrikWiFi.run (f : TrikWiFi) (inputs : List WorkerInput) : TrikWiFi :=
  inputs.foldl TrikWiFi.step f

/-- Modelled from the spec: the number of commands issued so far, the ticket of
the next one. -/
def TrikWiFi.nextTicket (f : TrikWiFi) : Nat :=
  f.mWorker.resolved.length + f.mWorker.phase.inFlight.length + f.mWorker.queue.length

/-- Modelled from the spec: `TrikWiFi::connect(id)` queues a Connect command. -/
def TrikWiFi.connect (f : TrikWiFi) (id : Int) : TrikWiFi :=
  f.step (WorkerInput.enqueue ⟨f.nextTicket, CommandKind.Connect id⟩)

/-- Modelled from the spec: `TrikWiFi::disconnect()` queues a Disconnect command. -/
def TrikWiFi.disconnect (f : TrikWiFi) : TrikWiFi :=
  f.step (WorkerInput.enqueue ⟨f.nextTicket, CommandKind.Disconnect⟩)

/-- Modelled from the spec: `TrikWiFi::statusRequest()` queues a Status command. -/
def TrikWiFi.statusRequest (f : TrikWiFi) : TrikWiFi :=
  f.step (WorkerInput.enqueue ⟨f.nextTicket, CommandKind.StatusRequest⟩)

/-- Modelled from the spec: `TrikWiFi::statusResult()` reads the cached status. -/
def TrikWiFi.statusResult (f : TrikWiFi) : List String :=
  f.cache.statusLines

/-- Modelled from the spec: `TrikWiFi::scanRequest()` queues a Scan command. -/
def TrikWiFi.scanRequest (f : TrikWiFi) : TrikWiFi :=
  f.step (WorkerInput.enqueue ⟨f.nextTicket, CommandKind.ScanRequest⟩)

/-- Modelled from the spec: `TrikWiFi::scanResult()` reads the cached scan. -/
def TrikWiFi.scanResult (f : TrikWiFi) : List ScanResult :=
  f.cache.scan

/-- Modelled from the spec: `TrikWiFi::listNetworksRequest()` queues a
ListNetworks command. -/
def TrikWiFi.listNetworksRequest (f : TrikWiFi) : TrikWiFi :=
  f.step (WorkerInput.enqueue ⟨f.nextTicket, CommandKind.ListNetworksRequest⟩)

/-- Modelled from the spec: `TrikWiFi::listNetworksResult()` reads the cached
network list. -/
def TrikWiFi.listNetworksResult (f : TrikWiFi) : List String :=
  f.cache.networkLines

/-- Modelled from the spec: `TrikWiFi::reinit()`. -/
def TrikWiFi.reinit (f : TrikWiFi) : TrikWiFi :=
  f.step WorkerInput.reinit

/-- Modelled from the spec: `TrikWiFi::dispose()`. -/
def TrikWiFi.dispose (f : TrikWiFi) : TrikWiFi :=
  f.step WorkerInput.dispose

/-- Modelled from the spec: whether an input is `reinit()`. -/
def WorkerInput.isReinit : WorkerInput → Bool
  | WorkerInput.reinit => true
  | _ => false

/-- Modelled from the spec: the Notifications other than `error`, the five that a
completion or an Event fires. -/
def signalsOf (notifications : List Notification) : List Notification :=
  notifications.filter (fun n => !n.isError)

/-- Modelled from the spec: the lines that the channel delivers in the scan
scenario of section 8. -/
def scanScenarioLines : List WorkerInput :=
  [ WorkerInput.lineRead "<event>CTRL-EVENT-SCAN-RESULTS",
    WorkerInput.lineRead "ssid=Net1,signal=-40",
    WorkerInput.lineRead "ssid=Net2,signal=-70",
    WorkerInput.lineRead "OK" ]

/-- Modelled from the spec: the Facade with an open channel on which the command
of `scanRequest()` was written. -/
def scanSent (trigger : ScanFinishedTrigger) : TrikWiFi :=
  ((({ scanFinishedOn := trigger } : TrikWiFi).step (WorkerInput.channelOpened true)).scanRequest.step
    WorkerInput.takeNext).step (WorkerInput.written true)

/-- Modelled from the spec: a Facade with a scan in flight and two commands
queued behind it. -/
def busyFacade : TrikWiFi :=
  ((scanSent ScanFinishedTrigger.onEvent).statusRequest).connect 3

/-- Modelled from the spec: inputs without `reinit()`: an event line, the worker
looking for the next command, a terminal line. -/
def quietInputs : List WorkerInput :=
  [ WorkerInput.lineRead "<event>CTRL-EVENT-CONNECTED", WorkerInput.takeNext,
    WorkerInput.lineRead "OK" ]

end trikWiFi

namespace trikKernel

/-! ## Lemmas on QHash -/

namespace QHash

theorem find_insert_self {V : Type} (m : QHash V) (k : String) (v : V) :
    find (insert m k v) k = some v := by
  induction m with
  | nil => simp [insert, find]
  | cons p rest ih =>
    obtain ⟨k1, w⟩ := p
    by_cases h : k1 = k <;> simp [insert, find, h, ih]

theorem find_insert_ne {V : Type} (m : QHash V) (k k2 : String) (v : V) (h : k2 ≠ k) :
    find (insert m k v) k2 = find m k2 := by
  induction m with
  | nil => simp [insert, find, Ne.symm h]
  | cons p rest ih =>
    obtain ⟨k1, w⟩ := p
    by_cases h1 : k1 = k
    · subst h1
      simp [insert, find, Ne.symm h]
    · by_cases h2 : k1 = k2
      · subst h2
        simp [insert, find, h1]
      · simp [insert, find, h1, h2, ih]

theorem find_insert {V : Type} (m : QHash V) (k k2 : String) (v : V) :
    find (insert m k v) k2 = if k2 = k then some v else find m k2 := by
  by_cases h : k2 = k
  · subst h; simp [find_insert_self]
  · simp [h, find_insert_ne m k k2 v h]

theorem find_eq_none_of_not_mem {V : Type} (m : QHash V) (k : String)
    (h : k ∉ m.map Prod.fst) : find m k = none := by
  induction m with
  | nil => rfl
  | cons p rest ih =>
    obtain ⟨k1, w⟩ := p
    simp only [List.map_cons, List.mem_cons, not_or] at h
    simp [find, Ne.symm h.1, ih h.2]

end QHash

/-- Copying the attributes of an element into a table gives every attribute of
the element its value, and leaves the other keys of the table alone. -/
theorem find_insertAttributes_aux (items : List (String × String))
    (hu : (items.map Prod.fst).Nodup) (target : QHash String) (a : String) :
    QHash.find (items.foldl (fun acc p => QHash.insert acc p.1 p.2) target) a
      = match QHash.find items a with
        | some v => some v
        | none => QHash.find target a := by
  induction items generalizing target with
  | nil => simp [QHash.find]
  | cons p rest ih =>
    obtain ⟨k, v⟩ := p
    simp only [List.map_cons, List.nodup_cons] at hu
    simp only [List.foldl_cons]
    rw [ih hu.2]
    by_cases h : k = a
    · subst h
      simp [QHash.find, QHash.find_eq_none_of_not_mem rest k hu.1, QHash.find_insert_self]
    · simp [QHash.find, h, QHash.find_insert_ne _ k a v (Ne.symm h)]

theorem find_insertAttributes (attrs : QDomNamedNodeMap) (a : String) :
    QHash.find (insertAttributes attrs []) a = QHash.find attrs.items a := by
  unfold insertAttributes
  rw [find_insertAttributes_aux attrs.items attrs.unique]
  cases QHash.find attrs.items a <;> simp [QHash.find]

/-! ## Lemmas on the loop over child nodes -/

theorem forEachChild_inv {σ : Type} (body : QDomNode → σ → Except MalformedConfigException σ)
    (P : σ → Prop)
    (hbody : ∀ n s s1, n.isElement = true → P s → body n s = Except.ok s1 → P s1) :
    ∀ (nodes : List QDomNode) (s s2 : σ), P s → forEachChild body nodes s = Except.ok s2 → P s2 := by
  intro nodes
  induction nodes with
  | nil =>
    intro s s2 hs h
    simp only [forEachChild, Except.ok.injEq] at h
    exact h ▸ hs
  | cons n rest ih =>
    intro s s2 hs h
    simp only [forEachChild] at h
    by_cases hn : n.isElement = true
    · simp only [hn, if_true] at h
      cases hb : body n s with
      | error e => simp [hb] at h
      | ok s1 =>
        simp only [hb] at h
        exact ih s1 s2 (hbody n s s1 hn hs hb) h
    · simp only [hn] at h
      exact ih s s2 hs h

/-- Every element among the child nodes has been run through the body, without
an exception, in a state that the invariant holds of. -/
theorem forEachChild_ok_mem {σ : Type}
    (body : QDomNode → σ → Except MalformedConfigException σ) (P : σ → Prop)
    (hbody : ∀ n s s1, n.isElement = true → P s → body n s = Except.ok s1 → P s1) :
    ∀ (nodes : List QDomNode) (s s2 : σ), P s → forEachChild body nodes s = Except.ok s2 →
      ∀ n ∈ nodes, n.isElement = true → ∃ s0 s1, P s0 ∧ body n s0 = Except.ok s1 := by
  intro nodes
  induction nodes with
  | nil => intro s s2 _ _ n hn; simp at hn
  | cons m rest ih =>
    intro s s2 hs h n hn hne
    simp only [forEachChild] at h
    by_cases hm : m.isElement = true
    · simp only [hm, if_true] at h
      cases hb : body m s with
      | error e => simp [hb] at h
      | ok s1 =>
        simp only [hb] at h
        rcases List.mem_cons.mp hn with rfl | hmem
        · exact ⟨s, s1, hs, hb⟩
        · exact ih s1 s2 (hbody m s s1 hm hs hb) h n hmem hne
    · simp only [hm] at h
      rcases List.mem_cons.mp hn with rfl | hmem
      · exact absurd hne hm
      · exact ih s s2 hs h n hmem hne

theorem tagName_of_isNamed {name : String} {n : QDomNode} (h : n.isNamed name = true) :
    n.tagName = name := by
  cases n <;> simp_all [QDomNode.isNamed, QDomNode.tagName]

theorem isNamed_iff (name : String) (n : QDomNode) :
    n.isNamed name = true ↔ n.isElement = true ∧ n.tagName = name := by
  cases n <;> simp [QDomNode.isNamed, QDomNode.isElement, QDomNode.tagName]

theorem lastElementNamed_some {name : String} {nodes : List QDomNode} {e : QDomNode}
    (h : lastElementNamed name nodes = some e) : e ∈ nodes ∧ e.isNamed name = true := by
  induction nodes with
  | nil => simp [lastElementNamed] at h
  | cons n rest ih =>
    simp only [lastElementNamed] at h
    cases hr : lastElementNamed name rest with
    | some e1 =>
      simp only [hr, Option.some.injEq] at h
      subst h
      exact ⟨List.mem_cons_of_mem _ (ih hr).1, (ih hr).2⟩
    | none =>
      simp only [hr] at h
      by_cases hn : n.isNamed name = true
      · simp only [hn, if_true, Option.some.injEq] at h
        subst h
        exact ⟨List.mem_cons_self _ _, hn⟩
      · simp [hn] at h

theorem lastElementNamed_none {name : String} {nodes : List QDomNode}
    (h : lastElementNamed name nodes = none) : ∀ n ∈ nodes, n.isNamed name = false := by
  induction nodes with
  | nil => intro n hn; simp at hn
  | cons m rest ih =>
    simp only [lastElementNamed] at h
    cases hr : lastElementNamed name rest with
    | some e1 => simp [hr] at h
    | none =>
      simp only [hr] at h
      intro n hn
      rcases List.mem_cons.mp hn with rfl | hmem
      · by_cases hm : n.isNamed name = true
        · simp [hm] at h
        · simpa using hm
      · exact ih hr n hmem

theorem lastElementNamed_isSome_iff (name : String) (nodes : List QDomNode) :
    (lastElementNamed name nodes).isSome = true ↔ ∃ n ∈ nodes, n.isNamed name = true := by
  constructor
  · intro h
    obtain ⟨e, he⟩ := Option.isSome_iff_exists.mp h
    exact ⟨e, lastElementNamed_some he⟩
  · rintro ⟨n, hn, hnamed⟩
    cases hl : lastElementNamed name nodes with
    | some e => rfl
    | none =>
      have := lastElementNamed_none hl n hn
      simp [hnamed] at this

/-- The entry that a loop leaves under key `k` is the one left by the body at the
last element named `k`, when only elements named `k` touch the key. -/
theorem forEachChild_last {σ V : Type}
    (body : QDomNode → σ → Except MalformedConfigException σ) (tbl : σ → QHash V) (k : String)
    (P : σ → Prop)
    (hbody : ∀ n s s1, n.isElement = true → P s → body n s = Except.ok s1 → P s1)
    (hother : ∀ n s s1, n.isElement = true → n.isNamed k = false → body n s = Except.ok s1 →
      QHash.find (tbl s1) k = QHash.find (tbl s) k) :
    ∀ (nodes : List QDomNode) (s s2 : σ), P s → forEachChild body nodes s = Except.ok s2 →
      match lastElementNamed k nodes with
      | some e => ∃ s0 s1, P s0 ∧ body e s0 = Except.ok s1
          ∧ QHash.find (tbl s2) k = QHash.find (tbl s1) k
      | none => QHash.find (tbl s2) k = QHash.find (tbl s) k := by
  intro nodes
  induction nodes with
  | nil =>
    intro s s2 _ h
    simp only [forEachChild, Except.ok.injEq] at h
    simp [lastElementNamed, h]
  | cons n rest ih =>
    intro s s2 hs h
    simp only [forEachChild] at h
    simp only [lastElementNamed]
    by_cases hn : n.isElement = true
    · simp only [hn, if_true] at h
      cases hb : body n s with
      | error e => simp [hb] at h
      | ok s1 =>
        simp only [hb] at h
        have hrest := ih s1 s2 (hbody n s s1 hn hs hb) h
        cases hr : lastElementNamed k rest with
        | some e => simpa [hr] using hrest
        | none =>
          simp only [hr] at hrest ⊢
          by_cases hk : n.isNamed k = true
          · simp only [hk, if_true]
            exact ⟨s, s1, hs, hb, hrest⟩
          · simp only [hk]
            rw [hrest]
            exact hother n s s1 hn (by simpa using hk) hb
    · simp only [hn] at h
      have hrest := ih s s2 hs h
      have hk : n.isNamed k = false := by
        cases n <;> simp_all [QDomNode.isNamed, QDomNode.isElement]
      cases hr : lastElementNamed k rest with
      | some e => simpa [hr] using hrest
      | none =>
        simp only [hr] at hrest ⊢
        simpa [hk] using hrest

end trikKernel

namespace trikKernel
namespace Configurer

/-! ## The loop bodies -/

theorem parseDeviceClass_ok (n : QDomNode) (c c1 : Configurer)
    (h : parseDeviceClass n c = Except.ok c1) :
    c1 = { c with mDevices := (QHash.insert c.mDevices n.tagName
      ({ name := n.tagName
         isOptional := decide (n.attributes.getAttribute "optional" "false" = "true")
         attributes := insertAttributes n.attributes [] } : Device)) } := by
  simp only [parseDeviceClass, Except.ok.injEq] at h
  exact h.symm

theorem insertPortSpecific_core (m : QHash Device) (dn port : String) (a : String × String)
    (hdn : QHash.find m dn ≠ none) (k : String) :
    (QHash.find (insertPortSpecific m dn port a) k).map Device.core
      = (QHash.find m k).map Device.core := by
  unfold insertPortSpecific
  simp only [QHash.find_insert]
  by_cases hk : k = dn
  · subst hk
    cases hf : QHash.find m k with
    | none => exact absurd hf hdn
    | some d => simp [QHash.value, hf, Device.core]
  · simp [hk]

theorem foldl_insertPortSpecific_core (items : List (String × String)) (dn port : String) :
    ∀ (m : QHash Device), QHash.find m dn ≠ none → ∀ k : String,
      (QHash.find (items.foldl (fun devices a => insertPortSpecific devices dn port a) m) k).map
        Device.core = (QHash.find m k).map Device.core := by
  induction items with
  | nil => intro m _ k; rfl
  | cons a rest ih =>
    intro m hdn k
    simp only [List.foldl_cons]
    have h1 := insertPortSpecific_core m dn port a hdn
    have hdn1 : QHash.find (insertPortSpecific m dn port a) dn ≠ none := by
      intro hnone
      have := h1 dn
      rw [hnone] at this
      cases hf : QHash.find m dn with
      | none => exact hdn hf
      | some d => simp [hf] at this
    rw [ih _ hdn1 k, h1 k]

theorem parseDevicePort_ok (n : QDomNode) (c c1 : Configurer)
    (h : parseDevicePort n c = Except.ok c1) :
    c.mDevices.contains n.tagName = true ∧ n.attributes.getAttribute "port" "" ≠ ""
      ∧ (∀ k, (QHash.find c1.mDevices k).map Device.core = (QHash.find c.mDevices k).map Device.core)
      ∧ c1.mDeviceTypes = c.mDeviceTypes
      ∧ c1.mAdditionalConfiguration = c.mAdditionalConfiguration
      ∧ c1.mAdditionalModelConfiguration = c.mAdditionalModelConfiguration := by
  simp only [parseDevicePort] at h
  by_cases hc : c.mDevices.contains n.tagName = true
  · by_cases hp : n.attributes.getAttribute "port" "" = ""
    · simp [hc, hp] at h
    · simp only [hc, hp, Bool.not_true, Bool.false_eq_true, if_false, Except.ok.injEq] at h
      subst h
      refine ⟨hc, hp, ?_, rfl, rfl, rfl⟩
      intro k
      apply foldl_insertPortSpecific_core
      intro hnone
      simp [QHash.contains, hnone] at hc
  · simp [hc] at h

theorem parseDeviceType_ok (n : QDomNode) (c c1 : Configurer)
    (h : parseDeviceType n c = Except.ok c1) :
    n.attributes.getAttribute "class" "" ≠ ""
      ∧ c.mDevices.contains (n.attributes.getAttribute "class" "") = true
      ∧ c1 = { c with mDeviceTypes := (QHash.insert c.mDeviceTypes n.tagName
          ({ name := n.tagName
             deviceClass := n.attributes.getAttribute "class" ""
             attributes := insertAttributes n.attributes [] } : DeviceType)) } := by
  simp only [parseDeviceType] at h
  by_cases hcls : n.attributes.getAttribute "class" "" = ""
  · simp [hcls] at h
  · by_cases hc : c.mDevices.contains (n.attributes.getAttribute "class" "") = true
    · simp only [hcls, hc, Bool.not_true, Bool.false_eq_true, if_false, Except.ok.injEq] at h
      exact ⟨hcls, hc, h.symm⟩
    · simp [hcls, hc] at h

theorem parseAdditionalConfiguration_ok (n : QDomNode) (c c1 : Configurer)
    (h : parseAdditionalConfiguration n c = Except.ok c1) :
    c1.mDevices = c.mDevices ∧ c1.mDeviceTypes = c.mDeviceTypes
      ∧ c1.mAdditionalModelConfiguration = c.mAdditionalModelConfiguration
      ∧ c1.mAdditionalConfiguration =
          if n.tagName = "initScript" ∨ n.tagName = "deviceClasses"
              ∨ n.tagName = "devicePorts" ∨ n.tagName = "deviceTypes" then
            c.mAdditionalConfiguration
          else QHash.insert c.mAdditionalConfiguration n.tagName
            { name := n.tagName, attributes := insertAttributes n.attributes [] } := by
  simp only [parseAdditionalConfiguration] at h
  by_cases h4 : n.tagName = "initScript" ∨ n.tagName = "deviceClasses"
      ∨ n.tagName = "devicePorts" ∨ n.tagName = "deviceTypes"
  · have h4b : (decide (n.tagName = "initScript") || decide (n.tagName = "deviceClasses")
        || decide (n.tagName = "devicePorts") || decide (n.tagName = "deviceTypes")) = true := by
      simp only [Bool.or_eq_true, decide_eq_true_eq]
      tauto
    simp only [h4b, if_true, Except.ok.injEq] at h
    subst h
    simp [h4]
  · have h4b : (decide (n.tagName = "initScript") || decide (n.tagName = "deviceClasses")
        || decide (n.tagName = "devicePorts") || decide (n.tagName = "deviceTypes")) = false := by
      simp only [Bool.or_eq_false_iff, decide_eq_false_iff_not]
      tauto
    simp only [h4b, Bool.false_eq_true, if_false, Except.ok.injEq] at h
    subst h
    simp [h4]

theorem parseModelConfigTag_ok (n : QDomNode) (c c1 : Configurer) (hn : n.isElement = true)
    (h : parseModelConfigTag n c = Except.ok c1) :
    c1.mDevices = c.mDevices ∧ c1.mDeviceTypes = c.mDeviceTypes
      ∧ c1.mAdditionalConfiguration = c.mAdditionalConfiguration
      ∧ c1.mAdditionalModelConfiguration =
          (if enabledEntry n = true then
            QHash.insert c.mAdditionalModelConfiguration n.tagName
              { deviceType := n.tagName, attributes := insertAttributes n.attributes [] }
          else c.mAdditionalModelConfiguration)
      ∧ (n.tagName ≠ "initScript" → n.childNodes.length ≤ 1)
      ∧ (n.tagName ≠ "initScript" → n.childNodes = [] → c.mDevices.contains n.tagName = true) := by
  simp only [parseModelConfigTag] at h
  by_cases hi : n.tagName = "initScript"
  · simp only [hi, if_true, Except.ok.injEq] at h
    subst h
    simp [parseInitScript, enabledEntry, hi]
  · simp only [hi, if_false] at h
    cases hch : n.childNodes with
    | nil =>
      simp only [QDomNode.hasChildNodes, hch, List.isEmpty_nil, Bool.not_true] at h
      by_cases hc : c.mDevices.contains n.tagName = true
      · by_cases hd : n.attributes.getAttribute "disabled" "false" = "false"
        · simp [hc, hd] at h
          subst h
          simp [enabledEntry, hn, hi, hch, hd, hc]
        · simp [hc, hd] at h
          subst h
          simp [enabledEntry, hn, hi, hch, hd, hc]
      · simp [hc] at h
    | cons d rest =>
      have hen : enabledEntry n = false := by simp [enabledEntry, hch]
      cases rest with
      | cons d2 rest2 => simp [QDomNode.hasChildNodes, hch] at h
      | nil =>
        by_cases hde : d.isElement = true
        · simp [QDomNode.hasChildNodes, hch, hde] at h
          subst h
          simp [hen, hi]
        · simp [QDomNode.hasChildNodes, hch, hde] at h
          subst h
          simp [hen, hi]

/-! ## The constructor -/

theorem parseSection_ok (sys : QDomNode) (name : String)
    (action : QDomNode → Configurer → Except MalformedConfigException Configurer)
    (c c1 : Configurer) (h : parseSection sys name action c = Except.ok c1) :
    ∃ sec, sys.elementsByTagName name = [sec] ∧ action sec c = Except.ok c1 := by
  simp only [parseSection] at h
  by_cases hl : (sys.elementsByTagName name).length = 1
  · simp only [hl, ne_eq, not_true_eq_false, if_false] at h
    obtain ⟨sec, hsec⟩ := List.length_eq_one.mp hl
    refine ⟨sec, hsec, ?_⟩
    simpa [hsec] using h
  · simp [hl] at h

theorem construct_ok (sys model : QDomNode) (c : Configurer)
    (h : construct sys model = Except.ok c) :
    ∃ secC secP secT secI c1 c2 c3 c5,
      sys.elementsByTagName "deviceClasses" = [secC]
      ∧ parseDeviceClasses secC {} = Except.ok c1
      ∧ sys.elementsByTagName "devicePorts" = [secP]
      ∧ parseDevicePorts secP c1 = Except.ok c2
      ∧ sys.elementsByTagName "deviceTypes" = [secT]
      ∧ parseDeviceTypes secT c2 = Except.ok c3
      ∧ sys.elementsByTagName "initScript" = [secI]
      ∧ parseAdditionalConfigurations sys (parseInitScript secI c3) = Except.ok c5
      ∧ parseModelConfig model c5 = Except.ok c := by
  unfold construct at h
  cases h1 : parseSection sys "deviceClasses" parseDeviceClasses {} with
  | error e => simp [h1] at h
  | ok c1 =>
    simp only [h1] at h
    cases h2 : parseSection sys "devicePorts" parseDevicePorts c1 with
    | error e => simp [h2] at h
    | ok c2 =>
      simp only [h2] at h
      cases h3 : parseSection sys "deviceTypes" parseDeviceTypes c2 with
      | error e => simp [h3] at h
      | ok c3 =>
        simp only [h3] at h
        cases h4 : parseSection sys "initScript"
            (fun element c => Except.ok (parseInitScript element c)) c3 with
        | error e => simp [h4] at h
        | ok c4 =>
          simp only [h4] at h
          cases h5 : parseAdditionalConfigurations sys c4 with
          | error e => simp [h5] at h
          | ok c5 =>
            simp only [h5] at h
            obtain ⟨secC, hC, hC1⟩ := parseSection_ok _ _ _ _ _ h1
            obtain ⟨secP, hP, hP1⟩ := parseSection_ok _ _ _ _ _ h2
            obtain ⟨secT, hT, hT1⟩ := parseSection_ok _ _ _ _ _ h3
            obtain ⟨secI, hI, hI1⟩ := parseSection_ok _ _ _ _ _ h4
            simp only [Except.ok.injEq] at hI1
            subst hI1
            exact ⟨secC, secP, secT, secI, c1, c2, c3, c5, hC, hC1, hP, hP1, hT, hT1, hI, h5, h⟩

end Configurer
end trikKernel

namespace trikKernel
namespace Configurer

/-! ## What each section leaves in the tables -/

theorem isNamed_false_ne {k : String} {n : QDomNode} (hn : n.isElement = true)
    (hk : n.isNamed k = false) : k ≠ n.tagName := by
  intro h
  have := (isNamed_iff k n).mpr ⟨hn, h.symm⟩
  simp [hk] at this

theorem parseDeviceClasses_devices (sec : QDomNode) (c0 c1 : Configurer)
    (h : parseDeviceClasses sec c0 = Except.ok c1) (k : String) :
    (QHash.find c1.mDevices k).map Device.core
      = match lastElementNamed k sec.childNodes with
        | some e => some (deviceClassCore e)
        | none => (QHash.find c0.mDevices k).map Device.core := by
  have key := forEachChild_last parseDeviceClass (fun s => s.mDevices) k (fun _ => True)
    (fun _ _ _ _ _ _ => trivial)
    (by
      intro n s s1 hn hk hb
      rw [parseDeviceClass_ok n s s1 hb]
      exact QHash.find_insert_ne _ _ _ _ (isNamed_false_ne hn hk))
    sec.childNodes c0 c1 trivial h
  cases hl : lastElementNamed k sec.childNodes with
  | none =>
    simp only [hl] at key ⊢
    rw [key]
  | some e =>
    simp only [hl] at key ⊢
    obtain ⟨s0, s1, _, hb, hfind⟩ := key
    have hname := tagName_of_isNamed (lastElementNamed_some hl).2
    rw [hfind, parseDeviceClass_ok e s0 s1 hb]
    simp [hname, QHash.find_insert_self, Device.core, deviceClassCore]

theorem parseDeviceClasses_others (sec : QDomNode) (c0 c1 : Configurer)
    (h : parseDeviceClasses sec c0 = Except.ok c1) :
    c1.mDeviceTypes = c0.mDeviceTypes
      ∧ c1.mAdditionalConfiguration = c0.mAdditionalConfiguration
      ∧ c1.mAdditionalModelConfiguration = c0.mAdditionalModelConfiguration := by
  refine forEachChild_inv parseDeviceClass
    (fun s => s.mDeviceTypes = c0.mDeviceTypes
      ∧ s.mAdditionalConfiguration = c0.mAdditionalConfiguration
      ∧ s.mAdditionalModelConfiguration = c0.mAdditionalModelConfiguration)
    ?_ sec.childNodes c0 c1 ⟨rfl, rfl, rfl⟩ h
  intro n s s1 _ hs hb
  rw [parseDeviceClass_ok n s s1 hb]
  exact hs

theorem parseDevicePorts_tables (sec : QDomNode) (c1 c2 : Configurer)
    (h : parseDevicePorts sec c1 = Except.ok c2) :
    (∀ k, (QHash.find c2.mDevices k).map Device.core = (QHash.find c1.mDevices k).map Device.core)
      ∧ c2.mDeviceTypes = c1.mDeviceTypes
      ∧ c2.mAdditionalConfiguration = c1.mAdditionalConfiguration
      ∧ c2.mAdditionalModelConfiguration = c1.mAdditionalModelConfiguration := by
  refine forEachChild_inv parseDevicePort
    (fun s => (∀ k, (QHash.find s.mDevices k).map Device.core
        = (QHash.find c1.mDevices k).map Device.core)
      ∧ s.mDeviceTypes = c1.mDeviceTypes
      ∧ s.mAdditionalConfiguration = c1.mAdditionalConfiguration
      ∧ s.mAdditionalModelConfiguration = c1.mAdditionalModelConfiguration)
    ?_ sec.childNodes c1 c2 ⟨fun _ => rfl, rfl, rfl, rfl⟩ h
  intro n s s1 _ hs hb
  obtain ⟨_, _, hcore, hT, hA, hM⟩ := parseDevicePort_ok n s s1 hb
  exact ⟨fun k => (hcore k).trans (hs.1 k), hT.trans hs.2.1, hA.trans hs.2.2.1,
    hM.trans hs.2.2.2⟩

theorem parseDeviceTypes_tables (sec : QDomNode) (c2 c3 : Configurer)
    (h : parseDeviceTypes sec c2 = Except.ok c3)
    (h0 : ∀ k t, QHash.find c2.mDeviceTypes k = some t →
      t.deviceClass ≠ "" ∧ c2.mDevices.contains t.deviceClass = true) :
    c3.mDevices = c2.mDevices
      ∧ c3.mAdditionalConfiguration = c2.mAdditionalConfiguration
      ∧ c3.mAdditionalModelConfiguration = c2.mAdditionalModelConfiguration
      ∧ (∀ k t, QHash.find c3.mDeviceTypes k = some t →
          t.deviceClass ≠ "" ∧ c2.mDevices.contains t.deviceClass = true) := by
  refine forEachChild_inv parseDeviceType
    (fun s => s.mDevices = c2.mDevices
      ∧ s.mAdditionalConfiguration = c2.mAdditionalConfiguration
      ∧ s.mAdditionalModelConfiguration = c2.mAdditionalModelConfiguration
      ∧ (∀ k t, QHash.find s.mDeviceTypes k = some t →
          t.deviceClass ≠ "" ∧ c2.mDevices.contains t.deviceClass = true))
    ?_ sec.childNodes c2 c3 ⟨rfl, rfl, rfl, h0⟩ h
  intro n s s1 _ hs hb
  obtain ⟨hcls, hcont, heq⟩ := parseDeviceType_ok n s s1 hb
  subst heq
  refine ⟨hs.1, hs.2.1, hs.2.2.1, ?_⟩
  intro k t hk
  simp only [QHash.find_insert] at hk
  by_cases hkn : k = n.tagName
  · simp only [hkn, if_true, Option.some.injEq] at hk
    subst hk
    exact ⟨hcls, by rw [← hs.1]; exact hcont⟩
  · simp only [hkn, if_false] at hk
    exact hs.2.2.2 k t hk

theorem parseAdditionalConfigurations_others (sys : QDomNode) (c4 c5 : Configurer)
    (h : parseAdditionalConfigurations sys c4 = Except.ok c5) :
    c5.mDevices = c4.mDevices ∧ c5.mDeviceTypes = c4.mDeviceTypes
      ∧ c5.mAdditionalModelConfiguration = c4.mAdditionalModelConfiguration := by
  refine forEachChild_inv parseAdditionalConfiguration
    (fun s => s.mDevices = c4.mDevices ∧ s.mDeviceTypes = c4.mDeviceTypes
      ∧ s.mAdditionalModelConfiguration = c4.mAdditionalModelConfiguration)
    ?_ sys.childNodes c4 c5 ⟨rfl, rfl, rfl⟩ h
  intro n s s1 _ hs hb
  obtain ⟨hD, hT, hM, _⟩ := parseAdditionalConfiguration_ok n s s1 hb
  exact ⟨hD.trans hs.1, hT.trans hs.2.1, hM.trans hs.2.2⟩

theorem parseAdditionalConfigurations_entry (sys : QDomNode) (c4 c5 : Configurer)
    (h : parseAdditionalConfigurations sys c4 = Except.ok c5) (T : String)
    (hT : T ≠ "initScript" ∧ T ≠ "deviceClasses" ∧ T ≠ "devicePorts" ∧ T ≠ "deviceTypes") :
    QHash.find c5.mAdditionalConfiguration T
      = match lastElementNamed T sys.childNodes with
        | some e => some { name := T, attributes := insertAttributes e.attributes [] }
        | none => QHash.find c4.mAdditionalConfiguration T := by
  have key := forEachChild_last parseAdditionalConfiguration
    (fun s => s.mAdditionalConfiguration) T (fun _ => True)
    (fun _ _ _ _ _ _ => trivial)
    (by
      intro n s s1 hn hk hb
      obtain ⟨_, _, _, hA⟩ := parseAdditionalConfiguration_ok n s s1 hb
      simp only []
      rw [hA]
      split
      · rfl
      · exact QHash.find_insert_ne _ _ _ _ (isNamed_false_ne hn hk))
    sys.childNodes c4 c5 trivial h
  cases hl : lastElementNamed T sys.childNodes with
  | none =>
    simp only [hl] at key ⊢
    rw [key]
  | some e =>
    simp only [hl] at key ⊢
    obtain ⟨s0, s1, _, hb, hfind⟩ := key
    have hname := tagName_of_isNamed (lastElementNamed_some hl).2
    obtain ⟨_, _, _, hA⟩ := parseAdditionalConfiguration_ok e s0 s1 hb
    rw [hfind, hA, hname]
    have hno : ¬ (T = "initScript" ∨ T = "deviceClasses" ∨ T = "devicePorts"
        ∨ T = "deviceTypes") := by
      rintro (h1 | h1 | h1 | h1)
      · exact hT.1 h1
      · exact hT.2.1 h1
      · exact hT.2.2.1 h1
      · exact hT.2.2.2 h1
    simp only [hno, if_false]
    exact QHash.find_insert_self _ _ _

theorem parseModelConfig_others (model : QDomNode) (c5 c : Configurer)
    (h : parseModelConfig model c5 = Except.ok c) :
    c.mDevices = c5.mDevices ∧ c.mDeviceTypes = c5.mDeviceTypes
      ∧ c.mAdditionalConfiguration = c5.mAdditionalConfiguration := by
  refine forEachChild_inv parseModelConfigTag
    (fun s => s.mDevices = c5.mDevices ∧ s.mDeviceTypes = c5.mDeviceTypes
      ∧ s.mAdditionalConfiguration = c5.mAdditionalConfiguration)
    ?_ model.childNodes c5 c ⟨rfl, rfl, rfl⟩ h
  intro n s s1 hn hs hb
  obtain ⟨hD, hT, hA, _⟩ := parseModelConfigTag_ok n s s1 hn hb
  exact ⟨hD.trans hs.1, hT.trans hs.2.1, hA.trans hs.2.2⟩

end Configurer
end trikKernel

namespace trikKernel
namespace Configurer

/-! ## Device entries of the model config -/

theorem enabledEntry_isElement {n : QDomNode} (h : enabledEntry n = true) :
    n.isElement = true := by
  simp only [enabledEntry, Bool.and_eq_true] at h
  exact h.1.1.1

theorem modelLoop_origin (nodes : List QDomNode) :
    ∀ (s s2 : Configurer), forEachChild parseModelConfigTag nodes s = Except.ok s2 →
      ∀ (T : String) (x : AdditionalModelConfigurationElement),
        QHash.find s2.mAdditionalModelConfiguration T = some x →
        QHash.find s.mAdditionalModelConfiguration T = some x
          ∨ ∃ n ∈ nodes, enabledEntry n = true ∧ n.tagName = T
              ∧ x = { deviceType := T, attributes := insertAttributes n.attributes [] } := by
  induction nodes with
  | nil =>
    intro s s2 h T x hx
    simp only [forEachChild, Except.ok.injEq] at h
    subst h
    exact Or.inl hx
  | cons n rest ih =>
    intro s s2 h T x hx
    simp only [forEachChild] at h
    by_cases hn : n.isElement = true
    · simp only [hn, if_true] at h
      cases hb : parseModelConfigTag n s with
      | error e => simp [hb] at h
      | ok s1 =>
        simp only [hb] at h
        rcases ih s1 s2 h T x hx with h1 | ⟨m, hm, hme, hmt, hmx⟩
        · obtain ⟨_, _, _, hA, _, _⟩ := parseModelConfigTag_ok n s s1 hn hb
          rw [hA] at h1
          by_cases hen : enabledEntry n = true
          · simp only [hen, if_true, QHash.find_insert] at h1
            by_cases hT : T = n.tagName
            · simp only [hT, if_true, Option.some.injEq] at h1
              refine Or.inr ⟨n, List.mem_cons_self _ _, hen, hT.symm, ?_⟩
              rw [← h1, hT]
            · simp only [hT, if_false] at h1
              exact Or.inl h1
          · simp only [hen] at h1
            exact Or.inl h1
        · exact Or.inr ⟨m, List.mem_cons_of_mem _ hm, hme, hmt, hmx⟩
    · simp only [hn] at h
      rcases ih s s2 h T x hx with h1 | ⟨m, hm, hme, hmt, hmx⟩
      · exact Or.inl h1
      · exact Or.inr ⟨m, List.mem_cons_of_mem _ hm, hme, hmt, hmx⟩

theorem modelLoop_contains (nodes : List QDomNode) :
    ∀ (s s2 : Configurer), forEachChild parseModelConfigTag nodes s = Except.ok s2 →
      ∀ (d : String), (∃ n ∈ nodes, enabledEntry n = true ∧ n.tagName = d)
          ∨ s.mAdditionalModelConfiguration.contains d = true →
        s2.mAdditionalModelConfiguration.contains d = true := by
  induction nodes with
  | nil =>
    intro s s2 h d hd
    simp only [forEachChild, Except.ok.injEq] at h
    subst h
    rcases hd with ⟨n, hn, _⟩ | hd
    · simp at hn
    · exact hd
  | cons n rest ih =>
    intro s s2 h d hd
    simp only [forEachChild] at h
    by_cases hn : n.isElement = true
    · simp only [hn, if_true] at h
      cases hb : parseModelConfigTag n s with
      | error e => simp [hb] at h
      | ok s1 =>
        simp only [hb] at h
        obtain ⟨_, _, _, hA, _, _⟩ := parseModelConfigTag_ok n s s1 hn hb
        apply ih s1 s2 h d
        rcases hd with ⟨m, hm, hme, hmt⟩ | hd
        · rcases List.mem_cons.mp hm with rfl | hm
          · right
            rw [hA]
            simp [hme, QHash.contains, QHash.find_insert, hmt]
          · exact Or.inl ⟨m, hm, hme, hmt⟩
        · right
          rw [hA]
          by_cases hen : enabledEntry n = true
          · simp only [hen, if_true, QHash.contains, QHash.find_insert]
            by_cases hT : d = n.tagName
            · simp [hT]
            · simpa [hT, QHash.contains] using hd
          · simpa [hen] using hd
    · simp only [hn] at h
      apply ih s s2 h d
      rcases hd with ⟨m, hm, hme, hmt⟩ | hd
      · rcases List.mem_cons.mp hm with rfl | hm
        · exact absurd (enabledEntry_isElement hme) hn
        · exact Or.inl ⟨m, hm, hme, hmt⟩
      · exact Or.inr hd

theorem modelLoop_last (nodes : List QDomNode) (s s2 : Configurer)
    (h : forEachChild parseModelConfigTag nodes s = Except.ok s2) (D : String) (e : QDomNode)
    (hl : lastElementNamed D nodes = some e) (he : enabledEntry e = true) :
    QHash.find s2.mAdditionalModelConfiguration D
      = some { deviceType := D, attributes := insertAttributes e.attributes [] } := by
  have key := forEachChild_last parseModelConfigTag
    (fun s => s.mAdditionalModelConfiguration) D (fun _ => True)
    (fun _ _ _ _ _ _ => trivial)
    (by
      intro n s s1 hn hk hb
      obtain ⟨_, _, _, hA, _, _⟩ := parseModelConfigTag_ok n s s1 hn hb
      simp only []
      rw [hA]
      split
      · exact QHash.find_insert_ne _ _ _ _ (isNamed_false_ne hn hk)
      · rfl)
    nodes s s2 trivial h
  simp only [hl] at key
  obtain ⟨s0, s1, _, hb, hfind⟩ := key
  have hname := tagName_of_isNamed (lastElementNamed_some hl).2
  obtain ⟨_, _, _, hA, _, _⟩ := parseModelConfigTag_ok e s0 s1 (enabledEntry_isElement he) hb
  rw [hfind, hA]
  simp only [he, if_true, hname]
  exact QHash.find_insert_self _ _ _

/-! ## The tables of a constructed Configurer -/

theorem construct_tables (sys model : QDomNode) (c : Configurer)
    (h : construct sys model = Except.ok c) :
    ∃ secC c5,
      sys.elementsByTagName "deviceClasses" = [secC]
      ∧ (∀ k, (QHash.find c.mDevices k).map Device.core
          = (lastElementNamed k secC.childNodes).map deviceClassCore)
      ∧ (∀ k t, QHash.find c.mDeviceTypes k = some t →
          t.deviceClass ≠ "" ∧ c.mDevices.contains t.deviceClass = true)
      ∧ (∀ T, T ≠ "initScript" ∧ T ≠ "deviceClasses" ∧ T ≠ "devicePorts" ∧ T ≠ "deviceTypes" →
          QHash.find c.mAdditionalConfiguration T
            = (lastElementNamed T sys.childNodes).map
                (fun e => { name := T, attributes := insertAttributes e.attributes [] }))
      ∧ c5.mAdditionalModelConfiguration = []
      ∧ c5.mDevices = c.mDevices
      ∧ parseModelConfig model c5 = Except.ok c := by
  obtain ⟨secC, secP, secT, secI, c1, c2, c3, c5, hC, hC1, _, hP1, _, hT1, _, hA1, hM1⟩ :=
    construct_ok sys model c h
  have hCo := parseDeviceClasses_others secC {} c1 hC1
  have hCd := parseDeviceClasses_devices secC {} c1 hC1
  obtain ⟨hPd, hPt, hPa, hPm⟩ := parseDevicePorts_tables secP c1 c2 hP1
  have hT0 : ∀ k t, QHash.find c2.mDeviceTypes k = some t →
      t.deviceClass ≠ "" ∧ c2.mDevices.contains t.deviceClass = true := by
    intro k t hk
    rw [hPt, hCo.1] at hk
    simp [QHash.find] at hk
  obtain ⟨hTd, hTa, hTm, hTt⟩ := parseDeviceTypes_tables secT c2 c3 hT1 hT0
  obtain ⟨hAd, hAt, hAm⟩ := parseAdditionalConfigurations_others sys _ c5 hA1
  obtain ⟨hMd, hMt, hMa⟩ := parseModelConfig_others model c5 c hM1
  have hdev : c.mDevices = c2.mDevices := by
    rw [hMd, hAd]; exact hTd
  refine ⟨secC, c5, hC, ?_, ?_, ?_, ?_, hMd.symm, hM1⟩
  · intro k
    rw [hdev, hPd k, hCd k]
    cases lastElementNamed k secC.childNodes <;> simp [QHash.find]
  · intro k t hk
    rw [hMt, hAt] at hk
    have := hTt k t (by simpa [parseInitScript] using hk)
    rw [hdev]
    exact this
  · intro T hT
    rw [hMa, parseAdditionalConfigurations_entry sys _ c5 hA1 T hT]
    cases lastElementNamed T sys.childNodes with
    | some e => rfl
    | none =>
      simp only [Option.map_none']
      show QHash.find c3.mAdditionalConfiguration T = none
      rw [hTa, hPa, hCo.2.1]
      rfl
  · rw [hAm]
    show c3.mAdditionalModelConfiguration = []
    rw [hTm, hPm, hCo.2.2]

end Configurer
end trikKernel

namespace trikKernel
namespace Configurer

/-! ## Device classes of a constructed Configurer -/

theorem layer_step (o : Option (QHash String)) (n : String)
    (rest : List (Option (QHash String))) :
    (((o :: rest).filterMap
        (fun layer => layer.bind (fun attrs => QHash.find attrs n))).head?).getD ""
      = match o.bind (fun attrs => QHash.find attrs n) with
        | some v => v
        | none => ((rest.filterMap
            (fun layer => layer.bind (fun attrs => QHash.find attrs n))).head?).getD "" := by
  cases h : o.bind (fun attrs => QHash.find attrs n) <;> simp [List.filterMap_cons, h]

theorem contains_of_core {m m2 : QHash Device} {k : String}
    (h : (QHash.find m k).map Device.core = (QHash.find m2 k).map Device.core) :
    m.contains k = m2.contains k := by
  simp only [QHash.contains]
  cases h1 : QHash.find m k <;> cases h2 : QHash.find m2 k <;> simp_all

theorem listed_of_section (sys secC : QDomNode) (k : String)
    (hC : sys.elementsByTagName "deviceClasses" = [secC]) :
    listedInDeviceClasses sys k = (lastElementNamed k secC.childNodes).isSome := by
  have h := lastElementNamed_isSome_iff k secC.childNodes
  simp only [listedInDeviceClasses, hC, List.any_cons, List.any_nil, Bool.or_false]
  cases hl : (lastElementNamed k secC.childNodes).isSome
  · rw [Bool.eq_false_iff]
    intro hany
    rw [List.any_eq_true] at hany
    have := h.mpr hany
    simp [hl] at this
  · rw [List.any_eq_true]
    exact h.mp hl

/-- The stages of a successful construction, with the keys of the device-class
table at each stage. -/
theorem construct_stages (sys model : QDomNode) (c : Configurer)
    (h : construct sys model = Except.ok c) :
    ∃ secP secT c1 c2 c3 c5,
      sys.elementsByTagName "devicePorts" = [secP]
      ∧ parseDevicePorts secP c1 = Except.ok c2
      ∧ sys.elementsByTagName "deviceTypes" = [secT]
      ∧ parseDeviceTypes secT c2 = Except.ok c3
      ∧ parseModelConfig model c5 = Except.ok c
      ∧ (∀ k, c1.mDevices.contains k = listedInDeviceClasses sys k)
      ∧ (∀ k, c2.mDevices.contains k = listedInDeviceClasses sys k)
      ∧ (∀ k, c5.mDevices.contains k = listedInDeviceClasses sys k)
      ∧ (∀ k, c.mDevices.contains k = listedInDeviceClasses sys k) := by
  obtain ⟨secC, secP, secT, secI, c1, c2, c3, c5, hC, hC1, hP, hP1, hT, hT1, _, hA1, hM1⟩ :=
    construct_ok sys model c h
  have hCd := parseDeviceClasses_devices secC {} c1 hC1
  obtain ⟨hPd, _, _, _⟩ := parseDevicePorts_tables secP c1 c2 hP1
  have hTd : c3.mDevices = c2.mDevices :=
    forEachChild_inv parseDeviceType (fun s => s.mDevices = c2.mDevices)
      (by
        intro n s s1 _ hs hb
        obtain ⟨_, _, heq⟩ := parseDeviceType_ok n s s1 hb
        subst heq
        exact hs)
      secT.childNodes c2 c3 rfl hT1
  obtain ⟨hAd, _, _⟩ := parseAdditionalConfigurations_others sys _ c5 hA1
  obtain ⟨hMd, _, _⟩ := parseModelConfig_others model c5 c hM1
  have k1 : ∀ k, c1.mDevices.contains k = listedInDeviceClasses sys k := by
    intro k
    rw [listed_of_section sys secC k hC]
    have := hCd k
    simp only [QHash.contains]
    cases hl : lastElementNamed k secC.childNodes <;>
      cases hf : QHash.find c1.mDevices k <;> simp_all [QHash.find]
  have k2 : ∀ k, c2.mDevices.contains k = listedInDeviceClasses sys k :=
    fun k => (contains_of_core (hPd k)).trans (k1 k)
  have k5 : ∀ k, c5.mDevices.contains k = listedInDeviceClasses sys k := by
    intro k
    rw [hAd]
    show c3.mDevices.contains k = _
    rw [hTd]
    exact k2 k
  exact ⟨secP, secT, c1, c2, c3, c5, hP, hP1, hT, hT1, hM1, k1, k2, k5,
    fun k => by rw [hMd]; exact k5 k⟩

theorem fails_of_not_ok (sys model : QDomNode)
    (h : ∀ c, construct sys model ≠ Except.ok c) :
    ∃ ex, construct sys model = Except.error ex := by
  cases hc : construct sys model with
  | error ex => exact ⟨ex, rfl⟩
  | ok c => exact absurd hc (h c)

end Configurer
end trikKernel

namespace trikKernel
namespace Configurer

/-! ## Attribute resolution and enablement -/

/-- C1: `Configurer::attribute` is total and returns the value that the first of
the five layers defining the attribute gives for the device type (model-config
device entry, system-config additional entry, device type, the class declared by
the device type, the device class of that name), and the empty string when no
layer defines it. -/
theorem attribute_resolution_order (c : Configurer) (deviceType attributeName : String) :
    c.getAttribute deviceType attributeName = c.layeredAttribute deviceType attributeName := by
  simp only [getAttribute, layeredAttribute, attributeLayers, QHash.contains, QHash.value,
    layer_step]
  generalize QHash.find c.mAdditionalModelConfiguration deviceType = o1
  generalize QHash.find c.mAdditionalConfiguration deviceType = o2
  generalize QHash.find c.mDevices deviceType = o5
  generalize QHash.find c.mDeviceTypes deviceType = o3
  rcases o3 with _ | e3
  · rcases o1 with _ | e1 <;> rcases o2 with _ | e2 <;>
      rcases o5 with _ | e5 <;> simp <;> (repeat' split) <;> simp_all
  · simp only [Option.getD_some, Option.map_some', Option.some_bind]
    generalize QHash.find c.mDevices e3.deviceClass = o4
    rcases o1 with _ | e1 <;> rcases o2 with _ | e2 <;> rcases o4 with _ | e4 <;>
      rcases o5 with _ | e5 <;> simp <;> (repeat' split) <;> simp_all

/-- C2, as stated, fails: in the Configurer built from `dupSystem` and `dupModel`
the device `d` is not enabled although `deviceClasses` has an element `d` whose
`optional` attribute is absent; `initScript` is not enabled although the model
config has a childless element of that name without `disabled`; and `e` is not
enabled although the model config contains a childless element `e` (below `S1`). -/
theorem isEnabled_as_stated_fails :
    construct dupSystem dupModel = Except.ok dupConfigurer
      ∧ (dupConfigurer.isEnabled "d" = false
        ∧ ∃ sec ∈ dupSystem.elementsByTagName "deviceClasses", ∃ e ∈ sec.childNodes,
            e.isNamed "d" = true ∧ e.attributes.getAttribute "optional" "false" ≠ "true")
      ∧ (dupConfigurer.isEnabled "initScript" = false
        ∧ ∃ n ∈ dupModel.childNodes, n.isNamed "initScript" = true ∧ n.childNodes = []
            ∧ n.attributes.hasAttribute "disabled" = false)
      ∧ (dupConfigurer.isEnabled "e" = false
        ∧ ∃ n ∈ dupModel.descendants, n.isNamed "e" = true ∧ n.childNodes = []
            ∧ n.attributes.hasAttribute "disabled" = false) := by
  refine ⟨rfl, ⟨by decide, ?_⟩, ⟨by decide, ?_⟩, ⟨by decide, ?_⟩⟩
  · exact ⟨plainElement "deviceClasses"
        [ plainElement "d" [], elementWith "d" "optional" "true" [],
          elementWith "e" "optional" "true" [] ],
      by simp [dupSystem, systemWith, plainElement, QDomNode.elementsByTagName,
        QDomNode.descendants, QDomNode.descendantsList, QDomNode.isNamed],
      plainElement "d" [], by simp [plainElement, QDomNode.childNodes], by decide, by decide⟩
  · exact ⟨plainElement "initScript" [], by simp [dupModel, plainElement, QDomNode.childNodes],
      by decide, rfl, by decide⟩
  · exact ⟨plainElement "e" [],
      by simp [dupModel, plainElement, QDomNode.descendants, QDomNode.descendantsList],
      by decide, rfl, by decide⟩

/-- C2, amended: in a constructed Configurer `isEnabled d` holds exactly when the
model config has a top-level childless element named `d`, other than
`initScript`, whose `disabled` attribute is absent or `false`, or the last
element named `d` of the `deviceClasses` section has an `optional` attribute
that is not `true`. -/
theorem isEnabled_iff (sys model : QDomNode) (c : Configurer)
    (h : construct sys model = Except.ok c) (d : String) :
    c.isEnabled d = true ↔
      (d ≠ "initScript" ∧ ∃ n ∈ model.childNodes, n.isNamed d = true ∧ n.childNodes = []
          ∧ n.attributes.getAttribute "disabled" "false" = "false")
      ∨ (∃ sec e, sys.elementsByTagName "deviceClasses" = [sec]
          ∧ lastElementNamed d sec.childNodes = some e
          ∧ e.attributes.getAttribute "optional" "false" ≠ "true") := by
  obtain ⟨secC, c5, hC, hdev, _, _, hM0, _, hM⟩ := construct_tables sys model c h
  have hmodel : c.mAdditionalModelConfiguration.contains d = true ↔
      (d ≠ "initScript" ∧ ∃ n ∈ model.childNodes, n.isNamed d = true ∧ n.childNodes = []
          ∧ n.attributes.getAttribute "disabled" "false" = "false") := by
    constructor
    · intro hc
      obtain ⟨x, hx⟩ := Option.isSome_iff_exists.mp hc
      rcases modelLoop_origin model.childNodes c5 c hM d x hx with h0 | ⟨n, hn, hen, hnt, _⟩
      · rw [hM0] at h0
        simp [QHash.find] at h0
      · simp only [enabledEntry, Bool.and_eq_true, decide_eq_true_eq, List.isEmpty_iff] at hen
        obtain ⟨⟨⟨hel, hni⟩, hch⟩, hdis⟩ := hen
        exact ⟨hnt ▸ hni, n, hn, (isNamed_iff d n).mpr ⟨hel, hnt⟩, hch, hdis⟩
    · rintro ⟨hdi, n, hn, hnamed, hch, hdis⟩
      obtain ⟨hel, hnt⟩ := (isNamed_iff d n).mp hnamed
      apply modelLoop_contains model.childNodes c5 c hM d
      left
      refine ⟨n, hn, ?_, hnt⟩
      simp [enabledEntry, hel, hnt, hdi, hch, hdis]
  have hclass : (c.mDevices.contains d && !(c.mDevices.value d).isOptional) = true ↔
      (∃ sec e, sys.elementsByTagName "deviceClasses" = [sec]
          ∧ lastElementNamed d sec.childNodes = some e
          ∧ e.attributes.getAttribute "optional" "false" ≠ "true") := by
    have hd := hdev d
    constructor
    · intro hc
      simp only [Bool.and_eq_true, Bool.not_eq_true', QHash.contains, QHash.value] at hc
      cases hf : QHash.find c.mDevices d with
      | none => simp [hf] at hc
      | some dev =>
        cases hl : lastElementNamed d secC.childNodes with
        | none => simp [hf, hl] at hd
        | some e =>
          refine ⟨secC, e, hC, hl, ?_⟩
          simp only [hf, hl, Option.map_some', Option.some.injEq, Device.core, deviceClassCore,
            Prod.mk.injEq] at hd
          have hopt : dev.isOptional = false := by simpa [hf] using hc.2
          intro htrue
          rw [hopt] at hd
          simp [htrue] at hd
    · rintro ⟨sec, e, hsec, hl, hopt⟩
      have : sec = secC := by
        rw [hC] at hsec
        simpa using hsec.symm
      subst this
      simp only [hl, Option.map_some'] at hd
      cases hf : QHash.find c.mDevices d with
      | none => simp [hf] at hd
      | some dev =>
        simp only [hf, Option.map_some', Option.some.injEq, Device.core, deviceClassCore,
          Prod.mk.injEq] at hd
        simp [QHash.contains, QHash.value, hf, hd.2.1, hopt]
  unfold isEnabled
  by_cases h1 : c.mAdditionalModelConfiguration.contains d = true
  · simp only [h1, if_true, true_iff]
    exact Or.inl (hmodel.mp h1)
  · simp only [h1]
    by_cases h2 : (c.mDevices.contains d && !(c.mDevices.value d).isOptional) = true
    · simp only [h2, if_true, Bool.false_eq_true, if_false, true_iff]
      exact Or.inr (hclass.mp h2)
    · simp only [h2, Bool.false_eq_true, if_false]
      constructor
      · intro hf
        simp at hf
      · rintro (hm | hk)
        · exact absurd (hmodel.mpr hm) h1
        · exact absurd (hclass.mpr hk) h2

/-- Witness for C2, on the example documents: `gamepad` is enabled and
has an enabled entry in the model config. -/
theorem isEnabled_iff_witness :
    construct exSystem exModel = Except.ok exConfigurer
      ∧ (exConfigurer.isEnabled "gamepad" = true ↔
        ("gamepad" ≠ "initScript" ∧ ∃ n ∈ exModel.childNodes, n.isNamed "gamepad" = true
            ∧ n.childNodes = [] ∧ n.attributes.getAttribute "disabled" "false" = "false")
        ∨ (∃ sec e, exSystem.elementsByTagName "deviceClasses" = [sec]
            ∧ lastElementNamed "gamepad" sec.childNodes = some e
            ∧ e.attributes.getAttribute "optional" "false" ≠ "true")) :=
  ⟨rfl, isEnabled_iff exSystem exModel exConfigurer rfl "gamepad"⟩

end Configurer
end trikKernel

namespace trikKernel
namespace Configurer

/-! ## Overrides and round trips -/

/-- C3, as stated, fails on the accepted pair `overrideSystem`, `overrideModel`.
For `D = initScript`: the last element of that name is childless, has no
`disabled` attribute and carries `a = v`, and yet `attribute(initScript, a)` is
empty. For `D = angularServo`: the last model-config element of that name, the
device on the port `S1`, is childless, has no `disabled` attribute and carries
`invert = true`, and yet `attribute(angularServo, invert)` is the `false` of the
device type. -/
theorem model_override_as_stated_fails :
    construct overrideSystem overrideModel = Except.ok overrideConfigurer
      ∧ (lastElementNamed "initScript" overrideModel.descendants
            = some (elementWith "initScript" "a" "v" [])
        ∧ (elementWith "initScript" "a" "v" []).childNodes = []
        ∧ (elementWith "initScript" "a" "v" []).attributes.hasAttribute "disabled" = false
        ∧ (elementWith "initScript" "a" "v" []).attributes.getAttribute "a" "" = "v"
        ∧ overrideConfigurer.getAttribute "initScript" "a" = ""
        ∧ overrideConfigurer.getAttribute "initScript" "a" ≠ "v")
      ∧ (lastElementNamed "angularServo" overrideModel.descendants
            = some (elementWith "angularServo" "invert" "true" [])
        ∧ (elementWith "angularServo" "invert" "true" []).childNodes = []
        ∧ (elementWith "angularServo" "invert" "true" []).attributes.hasAttribute "disabled"
            = false
        ∧ (elementWith "angularServo" "invert" "true" []).attributes.getAttribute "invert" ""
            = "true"
        ∧ overrideConfigurer.getAttribute "angularServo" "invert" = "false"
        ∧ overrideConfigurer.getAttribute "angularServo" "invert" ≠ "true") :=
  ⟨rfl, ⟨rfl, rfl, by decide, by decide, by decide, by decide⟩,
    ⟨rfl, rfl, by decide, by decide, by decide, by decide⟩⟩

/-- C3, amended: for accepted documents in which the last top-level element of
the model config (the last child of its root) named `D`, `D` other than
`initScript`, is childless, has `disabled` absent or `false` and carries
attribute `a` with value `v`, `attribute(D, a)` is `v`, whatever the system
config holds. -/
theorem model_overrides_system (sys model : QDomNode) (c : Configurer)
    (D a v : String) (e : QDomNode)
    (h : construct sys model = Except.ok c)
    (hD : D ≠ "initScript")
    (hlast : lastElementNamed D model.childNodes = some e)
    (hchildless : e.childNodes = [])
    (henabled : e.attributes.getAttribute "disabled" "false" = "false")
    (hattr : QHash.find e.attributes.items a = some v) :
    c.getAttribute D a = v := by
  obtain ⟨_, c5, _, _, _, _, _, _, hM⟩ := construct_tables sys model c h
  obtain ⟨hel, hnt⟩ := (isNamed_iff D e).mp (lastElementNamed_some hlast).2
  have hen : enabledEntry e = true := by
    simp [enabledEntry, hel, hnt, hD, hchildless, henabled]
  have hfind := modelLoop_last model.childNodes c5 c hM D e hlast hen
  simp [getAttribute, QHash.contains, QHash.value, hfind, find_insertAttributes, hattr]

/-- Witness for C3: the model config gives `gamepad` the
port 4444 while the system config gives 1111 and 2222. -/
theorem model_overrides_system_witness :
    construct exSystem exModel = Except.ok exConfigurer
      ∧ lastElementNamed "gamepad" exModel.childNodes
          = some (elementWith "gamepad" "port" "4444" [])
      ∧ exConfigurer.getAttribute "gamepad" "port" = "4444" :=
  ⟨rfl, rfl, model_overrides_system exSystem exModel exConfigurer "gamepad" "port" "4444"
    (elementWith "gamepad" "port" "4444" []) rfl (by decide) rfl rfl (by decide) (by decide)⟩

/-- C4: for an accepted system config whose last top-level element named `T`,
`T` none of the four section names, carries attribute `a` with value `v`, and a
model config without an enabled device entry named `T` that defines `a`,
`attribute(T, a)` is `v`. -/
theorem additional_entry_round_trip (sys model : QDomNode) (c : Configurer)
    (T a v : String) (e : QDomNode)
    (h : construct sys model = Except.ok c)
    (hT : T ≠ "initScript" ∧ T ≠ "deviceClasses" ∧ T ≠ "devicePorts" ∧ T ≠ "deviceTypes")
    (hlast : lastElementNamed T sys.childNodes = some e)
    (hattr : QHash.find e.attributes.items a = some v)
    (hmodel : ∀ n ∈ model.childNodes, enabledEntry n = true → n.tagName = T →
      QHash.find n.attributes.items a = none) :
    c.getAttribute T a = v := by
  obtain ⟨_, c5, _, _, _, hadd, hM0, _, hM⟩ := construct_tables sys model c h
  have hA := hadd T hT
  rw [hlast] at hA
  have hfirst : (c.mAdditionalModelConfiguration.contains T
      && (c.mAdditionalModelConfiguration.value T).attributes.contains a) = false := by
    cases hf : QHash.find c.mAdditionalModelConfiguration T with
    | none => simp [QHash.contains, hf]
    | some x =>
      rcases modelLoop_origin model.childNodes c5 c hM T x hf with h0 | ⟨n, hn, hen, hnt, hx⟩
      · rw [hM0] at h0
        simp [QHash.find] at h0
      · have := hmodel n hn hen hnt
        simp [QHash.contains, QHash.value, hf, hx, find_insertAttributes, this]
  simp only [getAttribute, hfirst, Bool.false_eq_true, if_false]
  simp [QHash.contains, QHash.value, hA, find_insertAttributes, hattr]

/-- Witness for C4: the system config gives `mailbox`
the server 8889 and the model config has no entry for it. -/
theorem additional_entry_round_trip_witness :
    construct exSystem exModel = Except.ok exConfigurer
      ∧ lastElementNamed "mailbox" exSystem.childNodes
          = some (elementWith "mailbox" "server" "8889" [])
      ∧ exConfigurer.getAttribute "mailbox" "server" = "8889" :=
  ⟨rfl, rfl, additional_entry_round_trip exSystem exModel exConfigurer "mailbox" "server" "8889"
    (elementWith "mailbox" "server" "8889" []) rfl (by decide) rfl (by decide) (by decide)⟩

/-! ## Rejected documents -/

/-- C5, as stated, fails: the document `nestedRootSystem` has two elements named
`deviceClasses`, its root and one section, and the construction succeeds: the
root element is not among the elements that the constructor counts. -/
theorem section_count_as_stated_fails :
    (documentElementsNamed nestedRootSystem "deviceClasses").length = 2
      ∧ (nestedRootSystem.elementsByTagName "deviceClasses").length = 1
      ∧ construct nestedRootSystem emptyModel = Except.ok nestedRootConfigurer :=
  ⟨by decide, by decide, rfl⟩

/-- C5, amended: when the number of elements named `deviceClasses`,
`devicePorts`, `deviceTypes` or `initScript` among the descendants of the root
element of the system config, at any depth and the root itself not counted, is
not one, for any of the four names, the construction throws and gives no
Configurer. -/
theorem section_shall_appear_once (sys model : QDomNode) (name : String)
    (hname : name ∈ ["deviceClasses", "devicePorts", "deviceTypes", "initScript"])
    (hcount : (sys.elementsByTagName name).length ≠ 1) :
    ∃ ex, construct sys model = Except.error ex := by
  apply fails_of_not_ok
  intro c hc
  obtain ⟨_, _, _, _, _, _, _, _, hC, _, hP, _, hT, _, hI, _, _⟩ := construct_ok sys model c hc
  simp only [List.mem_cons, List.mem_singleton, List.mem_nil_iff, or_false] at hname
  rcases hname with rfl | rfl | rfl | rfl
  · simp [hC] at hcount
  · simp [hP] at hcount
  · simp [hT] at hcount
  · simp [hI] at hcount

/-- Witness for C5: a system config with two
`deviceTypes` sections is rejected. -/
theorem section_shall_appear_once_witness :
    (twoTypesSystem.elementsByTagName "deviceTypes").length = 2
      ∧ ∃ ex, construct twoTypesSystem exModel = Except.error ex :=
  ⟨by decide, section_shall_appear_once twoTypesSystem exModel "deviceTypes" (by decide)
    (by decide)⟩

/-- C6: the construction throws when an element of a `deviceTypes` section has a
missing or empty `class` attribute or a class that is no element of
`deviceClasses`; and in a constructed Configurer every device-type entry has a
non-empty class that is a key of the device-class table. -/
theorem device_type_class (sys model : QDomNode) :
    ((∃ sec ∈ sys.elementsByTagName "deviceTypes", ∃ n ∈ sec.childNodes,
        n.isElement = true
          ∧ (n.attributes.getAttribute "class" "" = ""
            ∨ listedInDeviceClasses sys (n.attributes.getAttribute "class" "") = false)) →
      ∃ ex, construct sys model = Except.error ex)
    ∧ (∀ c, construct sys model = Except.ok c →
        ∀ k t, QHash.find c.mDeviceTypes k = some t →
          t.deviceClass ≠ "" ∧ c.mDevices.contains t.deviceClass = true) := by
  constructor
  · rintro ⟨sec, hsec, n, hn, hel, hbad⟩
    apply fails_of_not_ok
    intro c hc
    obtain ⟨_, secT, _, c2, c3, _, _, _, hT, hT1, _, _, k2, _, _⟩ :=
      construct_stages sys model c hc
    rw [hT] at hsec
    have hs : sec = secT := by simpa using hsec
    subst hs
    obtain ⟨s0, s1, hs0, hb⟩ := forEachChild_ok_mem parseDeviceType
      (fun s => s.mDevices = c2.mDevices)
      (by
        intro m s s1 _ hs hb
        obtain ⟨_, _, heq⟩ := parseDeviceType_ok m s s1 hb
        subst heq
        exact hs)
      sec.childNodes c2 c3 rfl hT1 n hn hel
    obtain ⟨hcls, hcont, _⟩ := parseDeviceType_ok n s0 s1 hb
    rcases hbad with hempty | hunlisted
    · exact hcls hempty
    · rw [hs0, k2, hunlisted] at hcont
      simp at hcont
  · intro c hc
    obtain ⟨_, _, _, _, htypes, _, _, _, _⟩ := construct_tables sys model c hc
    exact htypes

/-- Witness for C6: a device type of an unlisted class is
rejected, and the device type of the example Configurer has a listed class. -/
theorem device_type_class_witness :
    (∃ ex, construct badTypeSystem exModel = Except.error ex)
      ∧ (QHash.find exConfigurer.mDeviceTypes "angularServo").isSome = true
      ∧ (exConfigurer.mDeviceTypes.value "angularServo").deviceClass ≠ ""
      ∧ exConfigurer.mDevices.contains
          (exConfigurer.mDeviceTypes.value "angularServo").deviceClass = true :=
  ⟨(device_type_class badTypeSystem exModel).1
      ⟨plainElement "deviceTypes" [elementWith "angularServo" "class" "stepper" []],
        by simp [badTypeSystem, systemWith, plainElement, QDomNode.elementsByTagName,
          QDomNode.descendants, QDomNode.descendantsList, QDomNode.isNamed],
        elementWith "angularServo" "class" "stepper" [],
        by simp [plainElement, QDomNode.childNodes], rfl, Or.inr (by decide)⟩,
    by decide,
    ((device_type_class exSystem exModel).2 exConfigurer rfl "angularServo"
      (exConfigurer.mDeviceTypes.value "angularServo") rfl).1,
    ((device_type_class exSystem exModel).2 exConfigurer rfl "angularServo"
      (exConfigurer.mDeviceTypes.value "angularServo") rfl).2⟩

/-- C7: the construction throws when an element of a `devicePorts` section has a
tag name that is no element of `deviceClasses`, or a missing or empty `port`
attribute. -/
theorem port_map_shall_be_listed (sys model : QDomNode)
    (hbad : ∃ sec ∈ sys.elementsByTagName "devicePorts", ∃ n ∈ sec.childNodes,
      n.isElement = true
        ∧ (listedInDeviceClasses sys n.tagName = false
          ∨ n.attributes.getAttribute "port" "" = "")) :
    ∃ ex, construct sys model = Except.error ex := by
  obtain ⟨sec, hsec, n, hn, hel, hbad⟩ := hbad
  apply fails_of_not_ok
  intro c hc
  obtain ⟨secP, _, c1, c2, _, _, hP, hP1, _, _, _, k1, _, _, _⟩ :=
    construct_stages sys model c hc
  rw [hP] at hsec
  have hs : sec = secP := by simpa using hsec
  subst hs
  obtain ⟨s0, s1, hs0, hb⟩ := forEachChild_ok_mem parseDevicePort
    (fun s => ∀ k, (QHash.find s.mDevices k).map Device.core
      = (QHash.find c1.mDevices k).map Device.core)
    (by
      intro m s s1 _ hs hb
      obtain ⟨_, _, hcore, _⟩ := parseDevicePort_ok m s s1 hb
      exact fun k => (hcore k).trans (hs k))
    sec.childNodes c1 c2 (fun _ => rfl) hP1 n hn hel
  obtain ⟨hcont, hport, _⟩ := parseDevicePort_ok n s0 s1 hb
  rcases hbad with hunlisted | hempty
  · rw [contains_of_core (hs0 n.tagName), k1, hunlisted] at hcont
    simp at hcont
  · exact hport hempty

/-- Witness for C7: a port map without `port` is rejected. -/
theorem port_map_shall_be_listed_witness :
    (plainElement "servoMotor" []).attributes.getAttribute "port" "" = ""
      ∧ ∃ ex, construct badPortSystem exModel = Except.error ex :=
  ⟨by decide, port_map_shall_be_listed badPortSystem exModel
    ⟨plainElement "devicePorts" [plainElement "servoMotor" []],
      by simp [badPortSystem, systemWith, plainElement, QDomNode.elementsByTagName,
        QDomNode.descendants, QDomNode.descendantsList, QDomNode.isNamed],
      plainElement "servoMotor" [], by simp [plainElement, QDomNode.childNodes], rfl,
      Or.inr (by decide)⟩⟩

/-- C8: the construction throws for a model config with a top-level element,
other than `initScript`, that has more than one child. -/
theorem one_device_on_a_port (sys model : QDomNode)
    (hbad : ∃ n ∈ model.childNodes, n.isElement = true ∧ n.tagName ≠ "initScript"
      ∧ 1 < n.childNodes.length) :
    ∃ ex, construct sys model = Except.error ex := by
  obtain ⟨n, hn, hel, hni, hlen⟩ := hbad
  apply fails_of_not_ok
  intro c hc
  obtain ⟨_, _, _, _, _, c5, _, _, _, _, hM, _, _, _, _⟩ := construct_stages sys model c hc
  obtain ⟨s0, s1, _, hb⟩ := forEachChild_ok_mem parseModelConfigTag (fun _ => True)
    (fun _ _ _ _ _ _ => trivial) model.childNodes c5 c trivial hM n hn hel
  obtain ⟨_, _, _, _, hle, _⟩ := parseModelConfigTag_ok n s0 s1 hel hb
  have := hle hni
  omega

/-- Witness for C8: two devices on the port `S1` are rejected. -/
theorem one_device_on_a_port_witness :
    (plainElement "S1" [plainElement "angularServo" [], plainElement "stepper" []]).childNodes.length
        = 2
      ∧ ∃ ex, construct exSystem twoDevicesModel = Except.error ex :=
  ⟨rfl, one_device_on_a_port exSystem twoDevicesModel
    ⟨plainElement "S1" [plainElement "angularServo" [], plainElement "stepper" []],
      by simp [twoDevicesModel, plainElement, QDomNode.childNodes], rfl, by decide,
      by decide⟩⟩

/-- C9: the construction throws for a model config with a childless top-level
element, other than `initScript`, whose tag name is no element of
`deviceClasses`, whatever its `disabled` attribute says. -/
theorem model_device_shall_be_listed (sys model : QDomNode)
    (hbad : ∃ n ∈ model.childNodes, n.isElement = true ∧ n.tagName ≠ "initScript"
      ∧ n.childNodes = [] ∧ listedInDeviceClasses sys n.tagName = false) :
    ∃ ex, construct sys model = Except.error ex := by
  obtain ⟨n, hn, hel, hni, hch, hunlisted⟩ := hbad
  apply fails_of_not_ok
  intro c hc
  obtain ⟨_, _, _, _, _, c5, _, _, _, _, hM, _, _, k5, _⟩ := construct_stages sys model c hc
  obtain ⟨s0, s1, hs0, hb⟩ := forEachChild_ok_mem parseModelConfigTag
    (fun s => s.mDevices = c5.mDevices)
    (by
      intro m s s1 hm hs hb
      obtain ⟨hD, _⟩ := parseModelConfigTag_ok m s s1 hm hb
      exact hD.trans hs)
    model.childNodes c5 c rfl hM n hn hel
  obtain ⟨_, _, _, _, _, hcont⟩ := parseModelConfigTag_ok n s0 s1 hel hb
  have := hcont hni hch
  rw [hs0, k5, hunlisted] at this
  simp at this

/-- Witness for C9: a disabled entry for the unlisted
device `camera` is rejected. -/
theorem model_device_shall_be_listed_witness :
    (elementWith "camera" "disabled" "true" []).attributes.getAttribute "disabled" "false" = "true"
      ∧ ∃ ex, construct exSystem unlistedModel = Except.error ex :=
  ⟨by decide, model_device_shall_be_listed exSystem unlistedModel
    ⟨elementWith "camera" "disabled" "true" [],
      by simp [unlistedModel, plainElement, QDomNode.childNodes], rfl, by decide, rfl,
      by decide⟩⟩

end Configurer
end trikKernel

namespace trikWiFi

/-! ## At most one outstanding command -/

theorem consistent_step (w : RequestWorker) (input : WorkerInput) (h : w.Consistent) :
    (w.step input).Consistent := by
  obtain ⟨lifecycle, phase, queue, outstanding, resolved, stale⟩ := w
  cases input with
  | channelOpened ok =>
    cases lifecycle <;> cases phase <;>
      simp_all [RequestWorker.step, RequestWorker.Consistent]
  | enqueue command =>
    cases phase <;> simp_all [RequestWorker.step, RequestWorker.Consistent]
  | takeNext =>
    cases lifecycle <;> cases phase <;> cases queue <;>
      simp_all [RequestWorker.step, RequestWorker.Consistent]
  | written ok =>
    cases phase <;> cases ok <;> simp_all [RequestWorker.step, RequestWorker.Consistent]
  | lineRead line =>
    cases phase <;> by_cases he : isEventLine line = true <;>
      by_cases ht : isTerminalLine line = true <;>
      simp_all [RequestWorker.step, RequestWorker.Consistent]
  | timedOut =>
    cases phase <;> simp_all [RequestWorker.step, RequestWorker.Consistent]
  | reinit => simp [RequestWorker.step, RequestWorker.cancelAll, RequestWorker.Consistent]
  | dispose => simp [RequestWorker.step, RequestWorker.cancelAll, RequestWorker.Consistent]

theorem consistent_of_reachable (w : RequestWorker) (h : w.Reachable) : w.Consistent := by
  induction h with
  | initial => simp [RequestWorker.Consistent]
  | step w input _ ih => exact consistent_step w input ih

theorem reachable_run (inputs : List WorkerInput) :
    ∀ w : RequestWorker, w.Reachable → (w.run inputs).Reachable := by
  induction inputs with
  | nil => intro w h; exact h
  | cons input rest ih =>
    intro w h
    exact ih (w.step input) (RequestWorker.Reachable.step w input h)

/-- C10: in every reachable state of the WiFi request worker at most one Command
is outstanding on the control channel: no command is written before the reply
to the one before it was terminated, timed out or cancelled. -/
theorem at_most_one_outstanding (w : RequestWorker) (h : w.Reachable) :
    w.outstanding.length ≤ 1 := by
  have hc := consistent_of_reachable w h
  unfold RequestWorker.Consistent at hc
  split at hc <;> simp [hc]

/-- Witness for C10: the state after opening the channel,
queueing two commands and writing the first. -/
theorem at_most_one_outstanding_witness :
    (((((({} : RequestWorker).step (WorkerInput.channelOpened true)).step
        (WorkerInput.enqueue ⟨1, CommandKind.ScanRequest⟩)).step
        (WorkerInput.enqueue ⟨2, CommandKind.StatusRequest⟩)).step
        WorkerInput.takeNext).step (WorkerInput.written true)).outstanding.length ≤ 1 :=
  at_most_one_outstanding _
    (RequestWorker.Reachable.step _ _ (RequestWorker.Reachable.step _ _
      (RequestWorker.Reachable.step _ _ (RequestWorker.Reachable.step _ _
        (RequestWorker.Reachable.step _ _ RequestWorker.Reachable.initial)))))

end trikWiFi

namespace trikKernel
namespace Configurer

/-! ## A disabled entry of the model config -/

theorem forEachChild_append {σ : Type}
    (body : QDomNode → σ → Except MalformedConfigException σ) (pre post : List QDomNode) :
    ∀ s : σ, forEachChild body (pre ++ post) s
      = match forEachChild body pre s with
        | Except.ok s1 => forEachChild body post s1
        | Except.error e => Except.error e := by
  induction pre with
  | nil => intro s; rfl
  | cons n rest ih =>
    intro s
    simp only [List.cons_append, forEachChild]
    by_cases hn : n.isElement = true
    · simp only [hn, if_true]
      cases hb : body n s with
      | error e => rfl
      | ok s1 => exact ih s1
    · simp only [hn]
      exact ih s

theorem sameTables_refl (c : Configurer) : c.sameTables c := ⟨rfl, rfl, rfl, rfl, rfl⟩

theorem sameTables_symm {c c2 : Configurer} (h : c.sameTables c2) : c2.sameTables c :=
  ⟨h.1.symm, h.2.1.symm, h.2.2.1.symm, h.2.2.2.1.symm, h.2.2.2.2.symm⟩

theorem getAttribute_of_sameTables {c c2 : Configurer} (h : c.sameTables c2)
    (deviceType attributeName : String) :
    c.getAttribute deviceType attributeName = c2.getAttribute deviceType attributeName := by
  obtain ⟨h1, h2, h3, _, h5⟩ := h
  simp only [getAttribute, h1, h2, h3, h5]

theorem isEnabled_of_sameTables {c c2 : Configurer} (h : c.sameTables c2)
    (deviceName : String) : c.isEnabled deviceName = c2.isEnabled deviceName := by
  obtain ⟨h1, _, _, _, h5⟩ := h
  simp only [isEnabled, h1, h5]

/-- The loop body of `parseModelConfig` does not read the init scripts: from
states with the same tables it throws in both or leaves the same tables. -/
theorem parseModelConfigTag_sim (n : QDomNode) (s s2 t : Configurer) (hs : s.sameTables s2)
    (h : parseModelConfigTag n s = Except.ok t) :
    ∃ t2, parseModelConfigTag n s2 = Except.ok t2 ∧ t.sameTables t2 := by
  obtain ⟨d, dt, ac, mc, amc, scripts⟩ := s
  obtain ⟨d2, dt2, ac2, mc2, amc2, scripts2⟩ := s2
  obtain ⟨h1, h2, h3, h4, h5⟩ := hs
  simp only at h1 h2 h3 h4 h5
  subst h1 h2 h3 h4 h5
  simp only [parseModelConfigTag, parseInitScript] at h ⊢
  split_ifs at h ⊢ <;>
    (simp only [Except.ok.injEq] at h
     subst h
     exact ⟨_, rfl, by simp [sameTables]⟩)

theorem modelLoop_sim (nodes : List QDomNode) :
    ∀ (s s2 t : Configurer), s.sameTables s2 →
      forEachChild parseModelConfigTag nodes s = Except.ok t →
      ∃ t2, forEachChild parseModelConfigTag nodes s2 = Except.ok t2 ∧ t.sameTables t2 := by
  induction nodes with
  | nil =>
    intro s s2 t hs h
    simp only [forEachChild, Except.ok.injEq] at h
    subst h
    exact ⟨s2, rfl, hs⟩
  | cons n rest ih =>
    intro s s2 t hs h
    simp only [forEachChild] at h ⊢
    by_cases hn : n.isElement = true
    · simp only [hn, if_true] at h ⊢
      cases hb : parseModelConfigTag n s with
      | error e => simp [hb] at h
      | ok s1 =>
        simp only [hb] at h
        obtain ⟨u, hu, hsu⟩ := parseModelConfigTag_sim n s s2 s1 hs hb
        simp only [hu]
        exact ih s1 u t hsu h
    · simp only [hn] at h ⊢
      exact ih s s2 t hs h

/-- A childless element whose `disabled` attribute is not `false` leaves the
tables as they are, when the loop body accepts it. -/
theorem parseModelConfigTag_disabled (n : QDomNode) (s t : Configurer)
    (hchildless : n.childNodes = [])
    (hdisabled : n.attributes.getAttribute "disabled" "false" ≠ "false")
    (h : parseModelConfigTag n s = Except.ok t) : s.sameTables t := by
  simp only [parseModelConfigTag, parseInitScript, QDomNode.hasChildNodes, hchildless,
    List.isEmpty_nil, Bool.not_true, Bool.false_eq_true, if_false] at h
  split_ifs at h <;>
    (simp only [Except.ok.injEq] at h
     subst h
     simp [sameTables])

theorem construct_split (sys model : QDomNode) (c : Configurer)
    (h : construct sys model = Except.ok c) :
    ∃ c5, ∀ m, construct sys m = parseModelConfig m c5 := by
  unfold construct at h
  cases h1 : parseSection sys "deviceClasses" parseDeviceClasses {} with
  | error e => simp [h1] at h
  | ok c1 =>
    simp only [h1] at h
    cases h2 : parseSection sys "devicePorts" parseDevicePorts c1 with
    | error e => simp [h2] at h
    | ok c2 =>
      simp only [h2] at h
      cases h3 : parseSection sys "deviceTypes" parseDeviceTypes c2 with
      | error e => simp [h3] at h
      | ok c3 =>
        simp only [h3] at h
        cases h4 : parseSection sys "initScript"
            (fun element c => Except.ok (parseInitScript element c)) c3 with
        | error e => simp [h4] at h
        | ok c4 =>
          simp only [h4] at h
          cases h5 : parseAdditionalConfigurations sys c4 with
          | error e => simp [h5] at h
          | ok c5 =>
            refine ⟨c5, fun m => ?_⟩
            simp only [construct, h1, h2, h3, h4, h5]

theorem isEnabled_of_class (sys model : QDomNode) (c : Configurer)
    (h : construct sys model = Except.ok c) (d : String) (sec e : QDomNode)
    (hsec : sys.elementsByTagName "deviceClasses" = [sec])
    (hlast : lastElementNamed d sec.childNodes = some e)
    (hopt : e.attributes.getAttribute "optional" "false" ≠ "true") :
    c.isEnabled d = true := by
  obtain ⟨secC, _, hC, hdev, _⟩ := construct_tables sys model c h
  have hs : sec = secC := by
    rw [hC] at hsec
    simpa using hsec.symm
  subst hs
  have hd := hdev d
  simp only [hlast, Option.map_some'] at hd
  cases hf : QHash.find c.mDevices d with
  | none => simp [hf] at hd
  | some dev =>
    simp only [hf, Option.map_some', Option.some.injEq, Device.core, deviceClassCore,
      Prod.mk.injEq] at hd
    unfold isEnabled
    split
    · rfl
    · simp [QHash.contains, QHash.value, hf, hd.2.1, hopt]

/-- C13: a disabled entry of the model config is as good as none. When `(S, M)`
is accepted and `M2` is `M` without one childless top-level element whose
`disabled` attribute has a value other than `false`, then `(S, M2)` is accepted
and both Configurers answer every `attribute` and every `isEnabled` query alike;
and the device class of the removed element is enabled in both when it is not
optional. (That the tag name is listed in `deviceClasses` follows from the
acceptance of `M`, or the element is an init script: it is no hypothesis here.) -/
theorem disabled_entry_is_absent (sys : QDomNode) (tag : String) (attrs : QDomNamedNodeMap)
    (pre post : List QDomNode) (n : QDomNode) (c : Configurer)
    (h : construct sys (QDomNode.element tag attrs (pre ++ n :: post)) = Except.ok c)
    (hel : n.isElement = true)
    (hchildless : n.childNodes = [])
    (hdisabled : n.attributes.getAttribute "disabled" "false" ≠ "false") :
    ∃ c2, construct sys (QDomNode.element tag attrs (pre ++ post)) = Except.ok c2
      ∧ (∀ deviceType name, c2.getAttribute deviceType name = c.getAttribute deviceType name)
      ∧ (∀ deviceName, c2.isEnabled deviceName = c.isEnabled deviceName)
      ∧ (∀ sec e, sys.elementsByTagName "deviceClasses" = [sec] →
          lastElementNamed n.tagName sec.childNodes = some e →
          e.attributes.getAttribute "optional" "false" ≠ "true" →
          c.isEnabled n.tagName = true ∧ c2.isEnabled n.tagName = true) := by
  obtain ⟨c5, hsplit⟩ := construct_split sys _ c h
  have hM := h
  rw [hsplit] at hM
  simp only [parseModelConfig, QDomNode.childNodes] at hM
  rw [forEachChild_append] at hM
  cases hpre : forEachChild parseModelConfigTag pre c5 with
  | error ex => simp [hpre] at hM
  | ok s1 =>
    simp only [hpre, forEachChild, hel, if_true] at hM
    cases hb : parseModelConfigTag n s1 with
    | error ex => simp [hb] at hM
    | ok s2 =>
      simp only [hb] at hM
      have hs12 := parseModelConfigTag_disabled n s1 s2 hchildless hdisabled hb
      obtain ⟨c2, hc2, hsame⟩ := modelLoop_sim post s2 s1 c (sameTables_symm hs12) hM
      have hbuilt : construct sys (QDomNode.element tag attrs (pre ++ post)) = Except.ok c2 := by
        rw [hsplit]
        simp only [parseModelConfig, QDomNode.childNodes]
        rw [forEachChild_append, hpre]
        exact hc2
      refine ⟨c2, hbuilt, ?_, ?_, ?_⟩
      · exact fun deviceType name => (getAttribute_of_sameTables hsame deviceType name).symm
      · exact fun deviceName => (isEnabled_of_sameTables hsame deviceName).symm
      · intro sec e hsec hlast hopt
        exact ⟨isEnabled_of_class sys _ c h n.tagName sec e hsec hlast hopt,
          isEnabled_of_class sys _ c2 hbuilt n.tagName sec e hsec hlast hopt⟩

/-- Witness for C13: `disabledModel` marks the class `servoMotor` of `exSystem`,
which is not optional, as disabled; without that entry the model config is
accepted and `servoMotor` is enabled either way. -/
theorem disabled_entry_is_absent_witness :
    construct exSystem disabledModel = Except.ok disabledConfigurer
      ∧ listedInDeviceClasses exSystem "servoMotor" = true
      ∧ disabledConfigurer.isEnabled "servoMotor" = true
      ∧ ∃ c2, construct exSystem (plainElement "config"
            ([elementWith "gamepad" "port" "4444" []]
              ++ [plainElement "S1" [plainElement "angularServo" []]])) = Except.ok c2
          ∧ (∀ deviceType name,
              c2.getAttribute deviceType name = disabledConfigurer.getAttribute deviceType name)
          ∧ (∀ deviceName, c2.isEnabled deviceName = disabledConfigurer.isEnabled deviceName)
          ∧ (∀ sec e, exSystem.elementsByTagName "deviceClasses" = [sec] →
              lastElementNamed "servoMotor" sec.childNodes = some e →
              e.attributes.getAttribute "optional" "false" ≠ "true" →
              disabledConfigurer.isEnabled "servoMotor" = true
                ∧ c2.isEnabled "servoMotor" = true) :=
  ⟨rfl, by decide, by decide,
    disabled_entry_is_absent exSystem "config" QDomNamedNodeMap.empty
      [elementWith "gamepad" "port" "4444" []] [plainElement "S1" [plainElement "angularServo" []]]
      (elementWith "servoMotor" "disabled" "true" []) disabledConfigurer rfl rfl rfl
      (by decide)⟩

end Configurer
end trikKernel

namespace trikWiFi

/-! ## The scan scenario -/

/-- C11: when the command of a scan request has just been written on the open
channel (the worker awaits its reply and no reply line was read yet) and the
channel then delivers the event line `CTRL-EVENT-SCAN-RESULTS`, the data lines
`ssid=Net1,signal=-40` and `ssid=Net2,signal=-70` and the terminal line `OK`,
then `scanFinished` is the one Notification fired, once, and `scanResult()` is
the list of Net1 at -40 and Net2 at -70, in that order. This holds whether
`scanFinished` belongs to the event or to the completed command. -/
theorem scan_scenario (f : TrikWiFi) (command : Command)
    (hkind : command.kind = CommandKind.ScanRequest)
    (hready : f.mWorker.lifecycle = ChannelLifecycleState.Ready)
    (hsent : f.mWorker.phase = Phase.AwaitingReply command []) :
    (f.run scanScenarioLines).notifications = f.notifications ++ [Notification.scanFinished]
      ∧ (f.run scanScenarioLines).scanResult
          = [{ ssid := "Net1", signalLevel := -40 }, { ssid := "Net2", signalLevel := -70 }] := by
  obtain ⟨⟨lifecycle, phase, queue, outstanding, resolved, stale⟩, cache, notes, trigger⟩ := f
  obtain ⟨ticket, kind⟩ := command
  simp only at hkind hready hsent
  subst hkind hready hsent
  have e1 : isEventLine "<event>CTRL-EVENT-SCAN-RESULTS" = true := by decide
  have e2 : isEventLine "ssid=Net1,signal=-40" = false := by decide
  have e3 : isEventLine "ssid=Net2,signal=-70" = false := by decide
  have e4 : isEventLine "OK" = false := by decide
  have t2 : isTerminalLine "ssid=Net1,signal=-40" = false := by decide
  have t3 : isTerminalLine "ssid=Net2,signal=-70" = false := by decide
  have t4 : isTerminalLine "OK" = true := by decide
  have k1 : eventKindOf "<event>CTRL-EVENT-SCAN-RESULTS" = EventKind.ScanResultsReady := by
    decide
  have p2 : parseScanRow "ssid=Net1,signal=-40" = some { ssid := "Net1", signalLevel := -40 } := by
    decide
  have p3 : parseScanRow "ssid=Net2,signal=-70" = some { ssid := "Net2", signalLevel := -70 } := by
    decide
  cases trigger <;>
    simp [TrikWiFi.run, scanScenarioLines, TrikWiFi.step, TrikWiFi.scanResult,
      RequestWorker.step, e1, e2, e3, e4, t2, t3, t4, k1, p2, p3, eventNotifications,
      completionNotifications, StateCache.refresh]

/-- Witness for C11: the scenario from the start, with `scanFinished` fired by the
completed command. -/
theorem scan_scenario_witness :
    (scanSent ScanFinishedTrigger.onCompletion).notifications = []
      ∧ CommandKind.ScanRequest.wireText = "SCAN"
      ∧ ((scanSent ScanFinishedTrigger.onCompletion).run scanScenarioLines).notifications
          = (scanSent ScanFinishedTrigger.onCompletion).notifications ++ [Notification.scanFinished]
      ∧ ((scanSent ScanFinishedTrigger.onCompletion).run scanScenarioLines).scanResult
          = [{ ssid := "Net1", signalLevel := -40 }, { ssid := "Net2", signalLevel := -70 }] :=
  ⟨by decide, by decide,
    scan_scenario (scanSent ScanFinishedTrigger.onCompletion) ⟨0, CommandKind.ScanRequest⟩ rfl
      (by decide) (by decide)⟩

end trikWiFi

namespace trikWiFi

/-! ## After dispose -/

theorem step_resolved_append (w : RequestWorker) (input : WorkerInput) :
    ∃ extra, (w.step input).resolved = w.resolved ++ extra := by
  obtain ⟨lifecycle, phase, queue, outstanding, resolved, stale⟩ := w
  cases input with
  | channelOpened ok =>
    cases lifecycle <;> exact ⟨[], by simp [RequestWorker.step]⟩
  | enqueue command => exact ⟨[], by simp [RequestWorker.step]⟩
  | takeNext =>
    cases lifecycle <;> cases phase <;> cases queue <;>
      exact ⟨[], by simp [RequestWorker.step]⟩
  | written ok =>
    cases phase <;> cases ok <;> simp [RequestWorker.step]
  | lineRead line =>
    cases phase <;> by_cases he : isEventLine line = true <;>
      by_cases ht : isTerminalLine line = true <;>
      simp [RequestWorker.step, he, ht]
  | timedOut =>
    cases phase <;> simp [RequestWorker.step]
  | reinit => simp [RequestWorker.step, RequestWorker.cancelAll]
  | dispose => simp [RequestWorker.step, RequestWorker.cancelAll]

theorem run_resolved_append (inputs : List WorkerInput) :
    ∀ w : RequestWorker, ∃ extra, (w.run inputs).resolved = w.resolved ++ extra := by
  induction inputs with
  | nil => intro w; exact ⟨[], by simp [RequestWorker.run]⟩
  | cons input rest ih =>
    intro w
    obtain ⟨e1, h1⟩ := step_resolved_append w input
    obtain ⟨e2, h2⟩ := ih (w.step input)
    refine ⟨e1 ++ e2, ?_⟩
    simp only [RequestWorker.run, List.foldl_cons] at h2 ⊢
    rw [h2, h1, List.append_assoc]

theorem run_worker (inputs : List WorkerInput) :
    ∀ f : TrikWiFi, (f.run inputs).mWorker = f.mWorker.run inputs := by
  induction inputs with
  | nil => intro f; rfl
  | cons input rest ih =>
    intro f
    simp only [TrikWiFi.run, RequestWorker.run, List.foldl_cons] at ih ⊢
    rw [ih (f.step input)]
    rfl

theorem signalsOf_append (a b : List Notification) :
    signalsOf (a ++ b) = signalsOf a ++ signalsOf b := by
  simp [signalsOf]

theorem signalsOf_cancelled (trigger : ScanFinishedTrigger) (commands : List Command) :
    signalsOf ((((commands.map
      (fun command => (command, Outcome.failure Failure.Cancelled))).map
        (completionNotifications trigger)).flatten)) = [] := by
  induction commands with
  | nil => rfl
  | cons command rest ih =>
    simp only [List.map_cons, List.flatten_cons, signalsOf_append, ih, List.append_nil]
    simp [completionNotifications, signalsOf, Notification.isError]

/-- `dispose()` fires none of the five signals and leaves the worker disposed
and idle. -/
theorem dispose_step (f : TrikWiFi) :
    (f.step WorkerInput.dispose).mWorker.lifecycle = ChannelLifecycleState.Disposed
      ∧ (f.step WorkerInput.dispose).mWorker.phase = Phase.Idle
      ∧ signalsOf (f.step WorkerInput.dispose).notifications = signalsOf f.notifications := by
  refine ⟨rfl, rfl, ?_⟩
  simp only [TrikWiFi.step, RequestWorker.step, RequestWorker.cancelAll, List.drop_left,
    List.append_nil, signalsOf_append, signalsOf_cancelled]

/-- A disposed, idle worker stays so under every input but `reinit()`, and fires
none of the five signals. -/
theorem disposed_step (f : TrikWiFi) (input : WorkerInput)
    (hl : f.mWorker.lifecycle = ChannelLifecycleState.Disposed)
    (hp : f.mWorker.phase = Phase.Idle) (hin : input.isReinit = false) :
    (f.step input).mWorker.lifecycle = ChannelLifecycleState.Disposed
      ∧ (f.step input).mWorker.phase = Phase.Idle
      ∧ signalsOf (f.step input).notifications = signalsOf f.notifications := by
  cases input with
  | reinit => simp [WorkerInput.isReinit] at hin
  | dispose => exact dispose_step f
  | channelOpened ok =>
    obtain ⟨⟨lifecycle, phase, queue, outstanding, resolved, stale⟩, cache, notes, trigger⟩ := f
    simp only at hl hp
    subst hl hp
    simp [TrikWiFi.step, RequestWorker.step]
  | enqueue command =>
    obtain ⟨⟨lifecycle, phase, queue, outstanding, resolved, stale⟩, cache, notes, trigger⟩ := f
    simp only at hl hp
    subst hl hp
    simp [TrikWiFi.step, RequestWorker.step]
  | takeNext =>
    obtain ⟨⟨lifecycle, phase, queue, outstanding, resolved, stale⟩, cache, notes, trigger⟩ := f
    simp only at hl hp
    subst hl hp
    simp [TrikWiFi.step, RequestWorker.step]
  | written ok =>
    obtain ⟨⟨lifecycle, phase, queue, outstanding, resolved, stale⟩, cache, notes, trigger⟩ := f
    simp only at hl hp
    subst hl hp
    simp [TrikWiFi.step, RequestWorker.step]
  | lineRead line =>
    obtain ⟨⟨lifecycle, phase, queue, outstanding, resolved, stale⟩, cache, notes, trigger⟩ := f
    simp only at hl hp
    subst hl hp
    by_cases he : isEventLine line = true <;> simp [TrikWiFi.step, RequestWorker.step, he]
  | timedOut =>
    obtain ⟨⟨lifecycle, phase, queue, outstanding, resolved, stale⟩, cache, notes, trigger⟩ := f
    simp only at hl hp
    subst hl hp
    simp [TrikWiFi.step, RequestWorker.step]

theorem disposed_run (rest : List WorkerInput) :
    ∀ f : TrikWiFi, f.mWorker.lifecycle = ChannelLifecycleState.Disposed →
      f.mWorker.phase = Phase.Idle → rest.any WorkerInput.isReinit = false →
      signalsOf (f.run rest).notifications = signalsOf f.notifications := by
  induction rest with
  | nil => intro f _ _ _; rfl
  | cons input more ih =>
    intro f hl hp hno
    simp only [List.any_cons, Bool.or_eq_false_iff] at hno
    obtain ⟨hl1, hp1, hs1⟩ := disposed_step f input hl hp hno.1
    have := ih (f.step input) hl1 hp1 hno.2
    simp only [TrikWiFi.run, List.foldl_cons] at this ⊢
    rw [this, hs1]

/-- C12, as stated, fails: after `dispose()` a `reinit()` opens the channel anew,
and the status request that follows completes and fires `statusReady`. -/
theorem dispose_as_stated_fails :
    (({} : TrikWiFi).step (WorkerInput.channelOpened true)).dispose.mWorker.lifecycle
        = ChannelLifecycleState.Disposed
      ∧ (({} : TrikWiFi).step (WorkerInput.channelOpened true)).dispose.notifications = []
      ∧ ((((({} : TrikWiFi).step (WorkerInput.channelOpened true)).dispose.reinit.step
          (WorkerInput.channelOpened true)).statusRequest).run
          [WorkerInput.takeNext, WorkerInput.written true, WorkerInput.lineRead "OK"]).notifications
        = [Notification.statusReady] := by
  decide

/-- C12, amended: after `dispose()`, as long as `reinit()` is not called, none of
the Notifications `scanFinished`, `connected`, `disconnected`, `statusReady`,
`listNetworksReady` fires, whatever else happens; and every Command that is in
flight or queued when `dispose()` is called is resolved as `Cancelled`, from
`dispose()` on. -/
theorem dispose_silences (f : TrikWiFi) (rest : List WorkerInput) :
    (rest.any WorkerInput.isReinit = false →
        signalsOf (f.dispose.run rest).notifications = signalsOf f.notifications)
      ∧ (∀ command ∈ f.mWorker.phase.inFlight ++ f.mWorker.queue,
          (command, Outcome.failure Failure.Cancelled) ∈ (f.dispose.run rest).mWorker.resolved) := by
  obtain ⟨hl, hp, hs⟩ := dispose_step f
  constructor
  · intro hno
    rw [disposed_run rest f.dispose hl hp hno]
    exact hs
  · intro command hq
    rw [run_worker]
    obtain ⟨extra, hex⟩ := run_resolved_append rest f.dispose.mWorker
    rw [hex]
    apply List.mem_append_left
    simp only [TrikWiFi.dispose, TrikWiFi.step, RequestWorker.step, RequestWorker.cancelAll]
    apply List.mem_append_right
    exact List.mem_map.mpr ⟨command, hq, rfl⟩

/-- Witness for C12: two commands are queued behind a scan in flight when
`dispose()` is called; an event line and a terminal line follow. -/
theorem dispose_silences_witness :
    busyFacade.mWorker.phase.inFlight ++ busyFacade.mWorker.queue
        = [⟨0, CommandKind.ScanRequest⟩, ⟨1, CommandKind.StatusRequest⟩, ⟨2, CommandKind.Connect 3⟩]
      ∧ signalsOf (busyFacade.dispose.run quietInputs).notifications
          = signalsOf busyFacade.notifications
      ∧ (∀ command ∈ busyFacade.mWorker.phase.inFlight ++ busyFacade.mWorker.queue,
          (command, Outcome.failure Failure.Cancelled)
            ∈ (busyFacade.dispose.run quietInputs).mWorker.resolved) :=
  ⟨by decide, (dispose_silences busyFacade quietInputs).1 (by decide),
    (dispose_silences busyFacade quietInputs).2⟩

end trikWiFi
